import Mathlib

/-!
Verification development for the chain synchronization core of
src/ethcore/sync/src/chain/mod.rs (the ChainSync state machine).

The embedding models hashes and difficulties as Nat, monotonic instants as
nanoseconds since an epoch (also Nat, matching the nanosecond resolution of
Duration arithmetic in the source), and the external collaborators (chain
client, snapshot service, network io, the BlockDownloader and the Snapshot
downloader, which live outside this crate slice) as an oracle environment
Env whose fields give the results those collaborators return during one
handler invocation.  Every outbound effect is recorded as an Action.

The recursion continue_sync -> sync_peer -> maybe_start_snapshot_sync ->
continue_sync in the source is bounded in practice; it is embedded as a
single fuel-indexed structurally recursive function sync_go so that all
definitions compute by kernel reduction.
-/

namespace ParitySync

/-- Sync state enum of the source (SyncState). -/
inductive SyncState where
  | WaitingPeers
  | SnapshotManifest
  | SnapshotData
  | SnapshotWaiting
  | Blocks
  | Idle
  | Waiting
  | NewBlocks
deriving DecidableEq, Repr

/-- Peer data type requested (PeerAsking). -/
inductive PeerAsking where
  | Nothing
  | ForkHeader
  | BlockHeaders
  | BlockBodies
  | BlockReceipts
  | SnapshotManifest
  | SnapshotData
deriving DecidableEq, Repr

/-- Block downloader channel (BlockSet). -/
inductive BlockSet where
  | NewBlocks
  | OldBlocks
deriving DecidableEq, Repr

/-- Peer fork confirmation status (ForkConfirmation). -/
inductive ForkConfirmation where
  | Unconfirmed
  | TooShort
  | Confirmed
deriving DecidableEq, Repr

/-- Warp sync configuration (WarpSync of the sync api, modelled from the
spec section 6: Disabled, Enabled, or OnlyAndAfter a block number). -/
inductive WarpSync where
  | Disabled
  | Enabled
  | OnlyAndAfter (block : Nat)
deriving DecidableEq, Repr

/-- Modelled from the spec: WarpSync::is_enabled of the sync api (code not
under src/); warp sync is attempted in both the Enabled and the
OnlyAndAfter configurations. -/
def WarpSync.is_enabled : WarpSync → Bool
  | WarpSync.Disabled => false
  | WarpSync.Enabled => true
  | WarpSync.OnlyAndAfter _ => true

/-- Modelled from the spec: WarpSync::is_warp_only of the sync api (code not
under src/); only the OnlyAndAfter configuration makes warp mandatory. -/
def WarpSync.is_warp_only : WarpSync → Bool
  | WarpSync.OnlyAndAfter _ => true
  | _ => false

/-- Block status reported by the chain client (BlockStatus). -/
inductive BlockStatus where
  | InChain
  | Queued
  | Unknown
  | Pending
  | Bad
deriving DecidableEq, Repr

/-- Snapshot restoration status reported by the snapshot service
(RestorationStatus). -/
inductive RestorationStatus where
  | Inactive
  | Ongoing (state_chunks_done : Nat) (block_chunks_done : Nat)
  | Failed
deriving DecidableEq, Repr

/-- Outcome of chain.import_block for the block of a NewBlock packet,
following the error taxonomy matched in on_peer_new_block. -/
inductive ImportBlockResult where
  | ok
  | alreadyInChain
  | alreadyQueued
  | unknownParent
  | otherError
deriving DecidableEq, Repr

/-- Outcome of BlockDownloader::import_headers: DownloadAction::Reset,
DownloadAction::None, or a BlockDownloaderImportError. -/
inductive HeadersImport where
  | reset
  | noAction
  | useless
  | invalid
deriving DecidableEq, Repr

/-- Outcome of BlockDownloader::import_bodies / import_receipts. -/
inductive BodiesImport where
  | ok
  | useless
  | invalid
deriving DecidableEq, Repr

/-- Chunk classification returned by Snapshot::validate_chunk. -/
inductive ChunkKind where
  | block (hash : Nat)
  | state (hash : Nat)
deriving DecidableEq, Repr

/-- One request produced by BlockDownloader::request_blocks, carried to
SyncRequester::request_blocks (spec section 4.2). -/
inductive BlockRequest where
  | headers (hash : Nat) (count : Nat) (skip_ : Nat) (reverse : Bool)
  | bodies (hashes : List Nat)
  | receipts (hashes : List Nat)
deriving DecidableEq, Repr

/-- Outbound effect of a handler: network sends, peer penalties, downloader
and snapshot service calls. -/
inductive Action where
  | disablePeer (pid : Nat)
  | disconnectPeer (pid : Nat)
  | requestBlocks (pid : Nat) (req : BlockRequest) (set_ : BlockSet)
  | requestForkHeader (pid : Nat) (number : Nat)
  | requestManifest (pid : Nat)
  | requestSnapshotData (pid : Nat) (chunk : Nat)
  | importHeaders (pid : Nat) (set_ : BlockSet)
  | importBodies (pid : Nat) (set_ : BlockSet)
  | importReceipts (pid : Nat) (set_ : BlockSet)
  | collect (set_ : BlockSet)
  | queueTransactions (txs : List (List Nat)) (pid : Nat)
  | markAsKnown (hash : Nat) (number : Nat)
  | newBlocksReset
  | newBlocksRecreate
  | setOldTarget (hash : Nat)
  | abortRestore
  | beginRestore
  | restoreBlockChunk (hash : Nat)
  | restoreStateChunk (hash : Nat)
  | clearHeaderDownload (hash : Nat)
  | clearBodyDownload (hashes : List Nat)
  | clearReceiptDownload (hashes : List Nat)
  | clearChunkDownload (hash : Nat)
  | chainOverlayInsert (number : Nat) (header : List Nat)
deriving DecidableEq, Repr

/-- Syncing peer information (PeerInfo of the source). -/
structure PeerInfo where
  protocol_version : Nat
  genesis : Nat
  network_id : Nat
  latest_hash : Nat
  difficulty : Option Nat
  asking : PeerAsking
  asking_blocks : List Nat
  asking_hash : Option Nat
  asking_snapshot_data : Option Nat
  ask_time : Nat
  last_sent_transactions : List Nat
  expired : Bool
  confirmation : ForkConfirmation
  snapshot_hash : Option Nat
  snapshot_number : Option Nat
  block_set : Option BlockSet
deriving DecidableEq, Repr

/-- PeerInfo::can_sync: confirmed and not expired. -/
def PeerInfo.can_sync (p : PeerInfo) : Bool :=
  p.confirmation == ForkConfirmation.Confirmed && !p.expired

/-- PeerInfo::is_allowed: not unconfirmed and not expired. -/
def PeerInfo.is_allowed (p : PeerInfo) : Bool :=
  p.confirmation != ForkConfirmation.Unconfirmed && !p.expired

/-- PeerInfo::reset_asking: clear the request fields and mark a pending
request of an allowed peer as expired. -/
def PeerInfo.reset_asking (p : PeerInfo) : PeerInfo :=
  let p1 := { p with asking_blocks := ([] : List Nat), asking_hash := none }
  if p1.asking != PeerAsking.Nothing && p1.is_allowed then
    { p1 with expired := true }
  else p1

/-- Modelled from the spec: the slice of the Snapshot downloader state
(snapshot.rs, code not under src/) that ChainSync reads, per spec
section 4.3: current manifest hash, done and total chunk counters,
completion flag and the bad-hash blacklist. -/
structure SnapshotDown where
  have_manifest : Bool
  cur_hash : Option Nat
  known_bad : List Nat
  done : Nat
  total : Nat
  complete : Bool
deriving DecidableEq, Repr

/-- Modelled from the spec: Snapshot::clear keeps the blacklist and drops
the manifest and chunk progress. -/
def SnapshotDown.clear (s : SnapshotDown) : SnapshotDown :=
  { have_manifest := false, cur_hash := none, known_bad := s.known_bad,
    done := 0, total := 0, complete := false }

/-- Modelled from the spec: Snapshot::is_known_bad. -/
def SnapshotDown.is_known_bad (s : SnapshotDown) (h : Nat) : Bool :=
  s.known_bad.contains h

/-- Modelled from the spec: Snapshot::note_bad. -/
def SnapshotDown.note_bad (s : SnapshotDown) (h : Nat) : SnapshotDown :=
  { s with known_bad := h :: s.known_bad }

/-- Modelled from the spec: Snapshot::reset_to seeds the pending chunk set
from the manifest (total chunks) and records the manifest hash. -/
def SnapshotDown.reset_to (s : SnapshotDown) (total : Nat) (h : Nat) : SnapshotDown :=
  { have_manifest := true, cur_hash := some h, known_bad := s.known_bad,
    done := 0, total := total, complete := decide (total = 0) }

/-- Modelled from the spec: effect of a successful Snapshot::validate_chunk,
moving one chunk from pending to completed. -/
def SnapshotDown.complete_one (s : SnapshotDown) : SnapshotDown :=
  { s with done := s.done + 1, complete := decide (s.done + 1 ≥ s.total) }

/-- Snapshot manifest data as the status sender uses it: raw bytes (for the
keccak of its encoding) and the block number. -/
structure ManifestData where
  raw : List Nat
  block_number : Nat
deriving DecidableEq, Repr

/-- Chain info returned by the chain client (BlockChainInfo). -/
structure ChainInfo where
  best_block_number : Nat
  best_block_hash : Nat
  genesis_hash : Nat
  total_difficulty : Nat
  pending_total_difficulty : Nat
  ancient_block_hash : Option Nat
  ancient_block_number : Option Nat
  first_block_hash : Option Nat
deriving DecidableEq, Repr

/-- Oracle environment for one handler invocation: results of the injected
collaborators (chain client, snapshot service, network io, block and
snapshot downloaders, random source). -/
structure Env where
  now : Nat
  chain : ChainInfo
  queue_is_full : Bool
  is_chain_queue_empty : Bool
  block_status : Nat → BlockStatus
  import_block_result : ImportBlockResult
  snapshot_supported_versions : Option (Nat × Nat)
  snapshot_service_status : RestorationStatus
  snapshot_service_manifest : Option ManifestData
  warp_protocol_version : Nat → Nat
  is_expired : Bool
  overlay_contains : Nat → Bool
  keccak : List Nat → Nat
  request_blocks_new : Option BlockRequest
  request_blocks_old : Option BlockRequest
  import_headers_result : HeadersImport
  import_bodies_result : BodiesImport
  import_receipts_result : BodiesImport
  collect_new_invalid : Bool
  collect_old_invalid : Bool
  old_blocks_is_complete : Bool
  snapshot_chunk : Option Nat
  validate_chunk_result : Option ChunkKind
  manifest_decode_version : Option Nat
  manifest_total_chunks : Nat
  shuffle3 : List (Nat × Nat × Nat) → List (Nat × Nat × Nat)
  shuffle_ids : List Nat → List Nat

/-- The ChainSync state (struct ChainSync): the downloader and snapshot
internals are held abstractly (presence flag and last imported number for
the downloaders, SnapshotDown for the snapshot). -/
structure SyncSt where
  state : SyncState
  peers : List (Nat × PeerInfo)
  active_peers : List Nat
  handshaking_peers : List (Nat × Nat)
  highest_block : Option Nat
  old_blocks : Bool
  new_blocks_last_imported : Nat
  network_id : Nat
  fork_block : Option (Nat × Nat)
  snapshot : SnapshotDown
  sync_start_time : Option Nat
  download_old_blocks : Bool
  warp_sync : WarpSync
deriving DecidableEq, Repr

/-- Lookup of a peer record by id. -/
def lookupPeer (ps : List (Nat × PeerInfo)) (pid : Nat) : Option PeerInfo :=
  List.lookup pid ps

/-- Pointwise update of a peer record by id. -/
def setPeer (ps : List (Nat × PeerInfo)) (pid : Nat) (f : PeerInfo → PeerInfo) :
    List (Nat × PeerInfo) :=
  ps.map (fun kp => if kp.1 == pid then (kp.1, f kp.2) else kp)

/-- Removal of a peer record by id. -/
def removePeer (ps : List (Nat × PeerInfo)) (pid : Nat) : List (Nat × PeerInfo) :=
  ps.filter (fun kp => kp.1 != pid)

/-- Protocol and size constants of the source (durations in nanoseconds). -/
def MIN_PEERS_PROPAGATION : Nat := 4

def MAX_PEERS_PROPAGATION : Nat := 128

def MAX_NEW_BLOCK_AGE : Nat := 20

def MAX_TRANSACTION_SIZE : Nat := 300 * 1024

def SNAPSHOT_RESTORE_THRESHOLD : Nat := 30000

def SNAPSHOT_MIN_PEERS : Nat := 3

def MAX_SNAPSHOT_CHUNKS_DOWNLOAD_AHEAD : Nat := 3

def WAIT_PEERS_TIMEOUT : Nat := 5000000000

def STATUS_TIMEOUT : Nat := 5000000000

def HEADERS_TIMEOUT : Nat := 15000000000

def BODIES_TIMEOUT : Nat := 20000000000

def RECEIPTS_TIMEOUT : Nat := 10000000000

def FORK_HEADER_TIMEOUT : Nat := 3000000000

def SNAPSHOT_MANIFEST_TIMEOUT : Nat := 5000000000

def SNAPSHOT_DATA_TIMEOUT : Nat := 120000000000

def ETH_PROTOCOL_VERSION_63 : Nat := 63

def ETH_PROTOCOL_VERSION_62 : Nat := 62

def PAR_PROTOCOL_VERSION_1 : Nat := 1

def PAR_PROTOCOL_VERSION_2 : Nat := 2

def PAR_PROTOCOL_VERSION_3 : Nat := 3

/-- Asking kind that a block request of each flavour sets on the peer. -/
def BlockRequest.askingKind : BlockRequest → PeerAsking
  | BlockRequest.headers _ _ _ _ => PeerAsking.BlockHeaders
  | BlockRequest.bodies _ => PeerAsking.BlockBodies
  | BlockRequest.receipts _ => PeerAsking.BlockReceipts

/-- Modelled from the spec: SyncRequester::request_blocks lives in
chain/requester.rs, which is not under src/.  Per spec section 4.5 the
requester writes the packet and sets the asking kind, ask_time, and
asking_hash (header requests) or asking_blocks (body and receipt
requests), tagging block_set with the owning downloader. -/
def request_blocks_r (env : Env) (st : SyncSt) (peer_id : Nat)
    (request : BlockRequest) (set_ : BlockSet) : SyncSt × List Action :=
  let upd : PeerInfo → PeerInfo := fun p =>
    match request with
    | BlockRequest.headers h _ _ _ =>
      { p with asking := PeerAsking.BlockHeaders, asking_hash := some h,
               ask_time := env.now, block_set := some set_ }
    | BlockRequest.bodies hs =>
      { p with asking := PeerAsking.BlockBodies, asking_blocks := hs,
               ask_time := env.now, block_set := some set_ }
    | BlockRequest.receipts hs =>
      { p with asking := PeerAsking.BlockReceipts, asking_blocks := hs,
               ask_time := env.now, block_set := some set_ }
  ({ st with peers := setPeer st.peers peer_id upd },
   [Action.requestBlocks peer_id request set_])

/-- Modelled from the spec: SyncRequester::request_fork_header_by_number
(chain/requester.rs, not under src/) sends the probe and sets asking to
ForkHeader with a fresh ask_time. -/
def request_fork_header_r (env : Env) (st : SyncSt) (peer_id : Nat)
    (number : Nat) : SyncSt × List Action :=
  ({ st with peers := setPeer st.peers peer_id (fun p =>
      { p with asking := PeerAsking.ForkHeader, ask_time := env.now }) },
   [Action.requestForkHeader peer_id number])

/-- Modelled from the spec: SyncRequester::request_snapshot_manifest
(chain/requester.rs, not under src/) sends the request and sets asking to
SnapshotManifest with a fresh ask_time. -/
def request_snapshot_manifest_r (env : Env) (st : SyncSt) (peer_id : Nat) :
    SyncSt × List Action :=
  ({ st with peers := setPeer st.peers peer_id (fun p =>
      { p with asking := PeerAsking.SnapshotManifest, ask_time := env.now }) },
   [Action.requestManifest peer_id])

/-- Modelled from the spec: SyncRequester::request_snapshot_data
(chain/requester.rs, not under src/) picks a needed chunk from the
snapshot downloader (oracle snapshot_chunk) and sets asking to
SnapshotData together with asking_snapshot_data. -/
def request_snapshot_data_r (env : Env) (st : SyncSt) (peer_id : Nat) :
    SyncSt × List Action :=
  match env.snapshot_chunk with
  | some chunk =>
    ({ st with peers := setPeer st.peers peer_id (fun p =>
        { p with asking := PeerAsking.SnapshotData,
                 asking_snapshot_data := some chunk, ask_time := env.now }) },
     [Action.requestSnapshotData peer_id chunk])
  | none => (st, [])

/-- ChainSync::reset: reset the new-blocks downloader, reset the asking
fields of every peer not owned by the old-blocks downloader (filling in a
missing difficulty), set the state to Idle and reactivate all peers. -/
def reset (env : Env) (st : SyncSt) : SyncSt × List Action :=
  let peers := st.peers.map (fun kp =>
    if kp.2.block_set != some BlockSet.OldBlocks then
      let p1 := kp.2.reset_asking
      let p2 := if p1.difficulty.isNone then
          { p1 with difficulty := some env.chain.pending_total_difficulty }
        else p1
      (kp.1, p2)
    else kp)
  ({ st with peers := peers, state := SyncState.Idle,
             active_peers := peers.map Prod.fst },
   [Action.newBlocksReset])

/-- ChainSync::complete_sync: reset and go Idle. -/
def complete_sync (env : Env) (st : SyncSt) : SyncSt × List Action :=
  let (st1, a1) := reset env st
  ({ st1 with state := SyncState.Idle }, a1)

/-- ChainSync::pause_sync: enter the Waiting state. -/
def pause_sync (st : SyncSt) : SyncSt :=
  { st with state := SyncState.Waiting }

/-- ChainSync::deactivate_peer: drop the peer from the active set. -/
def deactivate_peer (st : SyncSt) (peer_id : Nat) : SyncSt :=
  { st with active_peers := st.active_peers.filter (fun q => q != peer_id) }

/-- ChainSync::clear_peer_download: tell the downloaders (or the snapshot)
to clear the antries the peer was downloading; pure effect on the external
downloaders, recorded as actions. -/
def clear_peer_download (st : SyncSt) (peer_id : Nat) : List Action :=
  match lookupPeer st.peers peer_id with
  | none => []
  | some peer =>
    match peer.asking with
    | PeerAsking.BlockHeaders =>
      match peer.asking_hash with
      | some h => [Action.clearHeaderDownload h]
      | none => []
    | PeerAsking.BlockBodies => [Action.clearBodyDownload peer.asking_blocks]
    | PeerAsking.BlockReceipts => [Action.clearReceiptDownload peer.asking_blocks]
    | PeerAsking.SnapshotData =>
      match peer.asking_snapshot_data with
      | some h => [Action.clearChunkDownload h]
      | none => []
    | _ => []

/-- ChainSync::reset_peer_asking: unconditionally clear expired and
block_set and set asking to Nothing, returning whether the previous asking
kind matched the expected one. -/
def reset_peer_asking (st : SyncSt) (peer_id : Nat) (asking : PeerAsking) :
    SyncSt × Bool :=
  match lookupPeer st.peers peer_id with
  | none => (st, false)
  | some peer =>
    let ok := peer.asking == asking
    ({ st with peers := setPeer st.peers peer_id (fun p =>
        { p with expired := false, block_set := none,
                 asking := PeerAsking.Nothing }) },
     ok)

/-- ChainSync::update_targets: recreate the new-blocks downloader from the
current best block and recreate the optional ancient downloader from the
chain ancient-block info. -/
def update_targets (env : Env) (st : SyncSt) : SyncSt × List Action :=
  let chain := env.chain
  let st1 := { st with new_blocks_last_imported := chain.best_block_number,
                       old_blocks := false }
  if st1.download_old_blocks then
    match chain.ancient_block_hash, chain.ancient_block_number with
    | some _h, some _n =>
      let acts := match chain.first_block_hash with
        | some h2 => [Action.newBlocksRecreate, Action.setOldTarget h2]
        | none => [Action.newBlocksRecreate]
      ({ st1 with old_blocks := true }, acts)
    | _, _ => (st1, [Action.newBlocksRecreate])
  else (st1, [Action.newBlocksRecreate])

/-- Update of an association list used for the snapshot-peer grouping in
maybe_start_snapshot_sync. -/
def assocSet (l : List (Nat × List Nat)) (k : Nat) (v : List Nat) :
    List (Nat × List Nat) :=
  if (List.lookup k l).isSome then
    l.map (fun kv => if kv.1 == k then (kv.1, v) else kv)
  else l ++ [(k, v)]

/-- Stable ascending sort by protocol version used by continue_sync; an
insertion sort, which agrees with the stable sort of the source. -/
def sortByVersion (l : List (Nat × Nat × Nat)) : List (Nat × Nat × Nat) :=
  let insert := fun (x : Nat × Nat × Nat) =>
    let rec go : List (Nat × Nat × Nat) → List (Nat × Nat × Nat)
      | [] => [x]
      | y :: ys => if y.2.2 ≤ x.2.2 then y :: go ys else x :: y :: ys
    go
  l.foldl (fun acc x => insert x acc) []

/-- ChainSync::start_snapshot_sync: without a manifest yet, request the
manifest from every given peer that is not busy and move to
SnapshotManifest; with a manifest, resume in SnapshotData. -/
def start_snapshot_sync (env : Env) (st : SyncSt) (peers : List Nat) :
    SyncSt × List Action :=
  if !st.snapshot.have_manifest then
    let step := fun (acc : SyncSt × List Action) (p : Nat) =>
      if (lookupPeer acc.1.peers p).elim false
          (fun q => q.asking == PeerAsking.Nothing) then
        let r := request_snapshot_manifest_r env acc.1 p
        (r.1, acc.2 ++ r.2)
      else acc
    let (st1, a1) := peers.foldl step (st, [])
    ({ st1 with state := SyncState.SnapshotManifest }, a1)
  else ({ st with state := SyncState.SnapshotData }, [])

/-- Helper for the SnapshotData arm of sync_peer: request a chunk when the
peer advertises the manifest currently being restored. -/
def snapshot_data_request (env : Env) (st : SyncSt) (peer_id : Nat)
    (peer_snapshot_hash : Option Nat) : SyncSt × List Action :=
  if peer_snapshot_hash.isSome && peer_snapshot_hash == st.snapshot.cur_hash then
    let a0 := clear_peer_download st peer_id
    let r := request_snapshot_data_r env st peer_id
    (r.1, a0 ++ r.2)
  else (st, [])

/-- The snapshot-candidate collection of ChainSync::maybe_start_snapshot_sync
(mod.rs lines 551 to 567): allowed peers whose advertised snapshot number
is above our best block by more than the restore threshold, above the fork
block and the expected warp block, and not contradicted by the known
highest block, paired with their advertised manifest hash, with
blacklisted hashes dropped. -/
def snapshot_candidates (env : Env) (st : SyncSt) : List (Nat × Nat) :=
  let our_best_block := env.chain.best_block_number
  let fork_block := st.fork_block.elim 0 Prod.fst
  let expected_warp_block := match st.warp_sync with
    | WarpSync.OnlyAndAfter block => block
    | _ => 0
  let snapshots0 := (st.peers.filter (fun kp =>
      kp.2.is_allowed && kp.2.snapshot_number.elim false (fun sn =>
        decide (our_best_block < sn) &&
        decide (sn - our_best_block > SNAPSHOT_RESTORE_THRESHOLD) &&
        decide (sn > fork_block) && decide (sn > expected_warp_block) &&
        st.highest_block.elim true (fun highest =>
          decide (highest ≥ sn) &&
          decide (highest - sn ≤ SNAPSHOT_RESTORE_THRESHOLD))))).filterMap
    (fun kp => kp.2.snapshot_hash.map (fun h => (kp.1, h)))
  snapshots0.filter (fun ph => !(st.snapshot.is_known_bad ph.2))

/-- Call selector for the bounded recursion between continue_sync,
sync_peer and maybe_start_snapshot_sync. -/
inductive GoCall where
  | cont
  | syncp (pid : Nat) (force : Bool)
  | maybeStart

/-- Fuel-indexed embedding of the mutually recursive trio
ChainSync::continue_sync (cont), ChainSync::sync_peer (syncp) and
ChainSync::maybe_start_snapshot_sync (maybeStart); every cross call spends
one unit of fuel, and exhausted fuel acts as a no-op.  In the source the
only re-entrant edge is the timeout branch of maybe_start_snapshot_sync,
which re-enters continue_sync after the state moved to Idle, so any fuel
above twice the peer count plus three gives the exact behaviour. -/
def sync_go (env : Env) : Nat → GoCall → SyncSt → SyncSt × List Action
  | 0, _, st => (st, [])
  | fuel + 1, GoCall.syncp peer_id force, st =>
    if !(st.active_peers.contains peer_id) then (st, [])
    else
      match lookupPeer st.peers peer_id with
      | none => (st, [])
      | some peer =>
        if peer.asking != PeerAsking.Nothing || !peer.can_sync then (st, [])
        else if st.state == SyncState.Waiting then (st, [])
        else if st.state == SyncState.SnapshotWaiting then (st, [])
        else
          let peer_latest := peer.latest_hash
          let peer_difficulty := peer.difficulty
          let peer_snapshot_hash := peer.snapshot_hash
          let syncing_difficulty := env.chain.pending_total_difficulty
          let higher_difficulty :=
            peer_difficulty.elim true (fun pd => decide (pd > syncing_difficulty))
          if force || higher_difficulty || st.old_blocks then
            match st.state with
            | SyncState.WaitingPeers => sync_go env fuel GoCall.maybeStart st
            | SyncState.Idle | SyncState.Blocks | SyncState.NewBlocks =>
              if env.queue_is_full then (pause_sync st, [])
              else
                let have_latest := env.block_status peer_latest != BlockStatus.Unknown
                let old_branch : SyncSt → SyncSt × List Action := fun st2 =>
                  if st2.old_blocks then
                    match env.request_blocks_old with
                    | some request =>
                      request_blocks_r env st2 peer_id request BlockSet.OldBlocks
                    | none => (st2, [])
                  else (st2, [])
                if !have_latest &&
                   (higher_difficulty || force || st.state == SyncState.NewBlocks) then
                  match env.request_blocks_new with
                  | some request =>
                    let r := request_blocks_r env st peer_id request BlockSet.NewBlocks
                    if st.state == SyncState.Idle then
                      ({ r.1 with state := SyncState.Blocks }, r.2)
                    else r
                  | none => old_branch st
                else old_branch st
            | SyncState.SnapshotData =>
              match env.snapshot_service_status with
              | RestorationStatus.Ongoing sc bc =>
                if st.snapshot.done - (sc + bc) > MAX_SNAPSHOT_CHUNKS_DOWNLOAD_AHEAD then
                  ({ st with state := SyncState.SnapshotWaiting }, [])
                else snapshot_data_request env st peer_id peer_snapshot_hash
              | _ => snapshot_data_request env st peer_id peer_snapshot_hash
            | _ => (st, [])
          else (st, [])
  | fuel + 1, GoCall.cont, st =>
    let peers0 := st.peers.filterMap (fun kp =>
      if kp.2.can_sync then some (kp.1, kp.2.difficulty.getD 0, kp.2.protocol_version)
      else none)
    let peers2 := sortByVersion (env.shuffle3 peers0)
    let step := fun (acc : SyncSt × List Action) (p : Nat × Nat × Nat) =>
      if acc.1.active_peers.contains p.1 then
        let r := sync_go env fuel (GoCall.syncp p.1 false) acc.1
        (r.1, acc.2 ++ r.2)
      else acc
    let (st1, a1) := peers2.foldl step (st, [])
    if st1.state != SyncState.WaitingPeers && st1.state != SyncState.SnapshotWaiting &&
       st1.state != SyncState.Waiting && st1.state != SyncState.Idle &&
       !(st1.peers.any (fun kp => kp.2.asking != PeerAsking.Nothing &&
          kp.2.block_set != some BlockSet.OldBlocks && kp.2.can_sync)) then
      let r := complete_sync env st1
      (r.1, a1 ++ r.2)
    else (st1, a1)
  | fuel + 1, GoCall.maybeStart, st =>
    if !st.warp_sync.is_enabled || env.snapshot_supported_versions.isNone then (st, [])
    else if st.state != SyncState.WaitingPeers && st.state != SyncState.Blocks &&
            st.state != SyncState.Waiting then (st, [])
    else
      let snapshots := snapshot_candidates env st
      let group := snapshots.foldl
        (fun (acc : List (Nat × List Nat) × Nat × Option Nat) ph =>
          let cur2 := (List.lookup ph.2 acc.1).getD [] ++ [ph.1]
          let sp2 := assocSet acc.1 ph.2 cur2
          if cur2.length > acc.2.1 then (sp2, cur2.length, some ph.2)
          else (sp2, acc.2.1, acc.2.2))
        ([], 0, none)
      let timeout := st.state == SyncState.WaitingPeers &&
        st.sync_start_time.elim false (fun t => decide (env.now - t > WAIT_PEERS_TIMEOUT))
      match group.2.2, group.2.2.bind (fun h => List.lookup h group.1) with
      | some _hash, some peersList =>
        if group.2.1 ≥ SNAPSHOT_MIN_PEERS then start_snapshot_sync env st peersList
        else if timeout then start_snapshot_sync env st peersList
        else (st, [])
      | _, _ =>
        if timeout && !st.warp_sync.is_warp_only then
          sync_go env fuel GoCall.cont { st with state := SyncState.Idle }
        else (st, [])

/-- ChainSync::continue_sync at a given fuel. -/
def continue_sync (env : Env) (fuel : Nat) (st : SyncSt) : SyncSt × List Action :=
  sync_go env fuel GoCall.cont st

/-- ChainSync::sync_peer at a given fuel. -/
def sync_peer (env : Env) (fuel : Nat) (st : SyncSt) (peer_id : Nat)
    (force : Bool) : SyncSt × List Action :=
  sync_go env fuel (GoCall.syncp peer_id force) st

/-- ChainSync::maybe_start_snapshot_sync at a given fuel. -/
def maybe_start_snapshot_sync (env : Env) (fuel : Nat) (st : SyncSt) :
    SyncSt × List Action :=
  sync_go env fuel GoCall.maybeStart st

/-- ChainSync::reset_and_continue: abort an ongoing snapshot restoration,
clear the snapshot, reset and resume. -/
def reset_and_continue (env : Env) (fuel : Nat) (st : SyncSt) :
    SyncSt × List Action :=
  let a0 := if st.state == SyncState.SnapshotData then [Action.abortRestore] else []
  let st1 := { st with snapshot := st.snapshot.clear }
  let (st2, a2) := reset env st1
  let r := continue_sync env fuel st2
  (r.1, a0 ++ a2 ++ r.2)

/-- ChainSync::restart: update the downloader targets and restart. -/
def restart (env : Env) (fuel : Nat) (st : SyncSt) : SyncSt × List Action :=
  let (st1, a1) := update_targets env st
  let r := reset_and_continue env fuel st1
  (r.1, a1 ++ r.2)

/-- ChainSync::collect_blocks: run the downloader collection (oracle), a
full restart when it reports invalid data, and retirement of a completed
ancient downloader. -/
def collect_blocks (env : Env) (fuel : Nat) (st : SyncSt) (block_set : BlockSet) :
    SyncSt × List Action :=
  match block_set with
  | BlockSet.NewBlocks =>
    if env.collect_new_invalid then
      let r := restart env fuel st
      (r.1, Action.collect BlockSet.NewBlocks :: r.2)
    else (st, [Action.collect BlockSet.NewBlocks])
  | BlockSet.OldBlocks =>
    if !st.old_blocks then (st, [])
    else if env.collect_old_invalid then
      let r := restart env fuel st
      (r.1, Action.collect BlockSet.OldBlocks :: r.2)
    else if env.old_blocks_is_complete then
      ({ st with old_blocks := false }, [Action.collect BlockSet.OldBlocks])
    else (st, [Action.collect BlockSet.OldBlocks])

/-- ChainSync::on_peer_aborting: forget a disconnecting peer and resume. -/
def on_peer_aborting (env : Env) (fuel : Nat) (st : SyncSt) (peer : Nat) :
    SyncSt × List Action :=
  let st0 := { st with
    handshaking_peers := st.handshaking_peers.filter (fun kt => kt.1 != peer) }
  if (lookupPeer st0.peers peer).isSome then
    let a0 := clear_peer_download st0 peer
    let st1 := { st0 with peers := removePeer st0.peers peer,
                          active_peers := st0.active_peers.filter (fun q => q != peer) }
    let r := continue_sync env fuel st1
    (r.1, a0 ++ r.2)
  else (st0, [])

/-- Per-asking timeout test of ChainSync::maintain_peers (instants in
nanoseconds, as in Duration arithmetic). -/
def peer_timed_out (tick : Nat) (p : PeerInfo) : Bool :=
  let elapsed := tick - p.ask_time
  match p.asking with
  | PeerAsking.BlockHeaders => decide (elapsed > HEADERS_TIMEOUT)
  | PeerAsking.BlockBodies => decide (elapsed > BODIES_TIMEOUT)
  | PeerAsking.BlockReceipts => decide (elapsed > RECEIPTS_TIMEOUT)
  | PeerAsking.Nothing => false
  | PeerAsking.ForkHeader => decide (elapsed > FORK_HEADER_TIMEOUT)
  | PeerAsking.SnapshotManifest => decide (elapsed > SNAPSHOT_MANIFEST_TIMEOUT)
  | PeerAsking.SnapshotData => decide (elapsed > SNAPSHOT_DATA_TIMEOUT)

/-- ChainSync::maintain_peers: disconnect peers whose in-flight request
timed out and abort them; then sweep handshaking peers, disconnecting
those whose elapsed time, divided by 1000000000 as in the source, exceeds
STATUS_TIMEOUT. -/
def maintain_peers (env : Env) (fuel : Nat) (st : SyncSt) : SyncSt × List Action :=
  let tick := env.now
  let aborting := (st.peers.filter (fun kp => peer_timed_out tick kp.2)).map Prod.fst
  let a0 := aborting.map Action.disconnectPeer
  let (st1, a1) := aborting.foldl (fun acc p =>
      let r := on_peer_aborting env fuel acc.1 p
      (r.1, acc.2 ++ r.2)) (st, [])
  let a2 := (st1.handshaking_peers.filter (fun kt =>
      decide ((tick - kt.2) / 1000000000 > STATUS_TIMEOUT))).map
    (fun kt => Action.disconnectPeer kt.1)
  (st1, a0 ++ a1 ++ a2)

/-- Decoded Status packet payload (fields read by on_peer_status; the two
snapshot fields are read only when the warp protocol is negotiated). -/
structure StatusPayload where
  protocol_version : Nat
  network_id : Nat
  difficulty : Nat
  latest_hash : Nat
  genesis : Nat
  snapshot_hash : Nat
  snapshot_number : Nat
deriving DecidableEq, Repr

/-- ChainSync::on_peer_status: drop the peer from the handshaking set,
build its record, ignore duplicate or expired-session status, validate
genesis, network id and protocol version (disabling on mismatch), then
register the peer and either probe the fork header or start syncing. -/
def on_peer_status (env : Env) (fuel : Nat) (st : SyncSt) (peer_id : Nat)
    (r : StatusPayload) : SyncSt × List Action :=
  let st0 := { st with
    handshaking_peers := st.handshaking_peers.filter (fun kt => kt.1 != peer_id) }
  let warp_protocol := env.warp_protocol_version peer_id != 0
  let peer : PeerInfo := {
    protocol_version := r.protocol_version
    network_id := r.network_id
    difficulty := some r.difficulty
    latest_hash := r.latest_hash
    genesis := r.genesis
    asking := PeerAsking.Nothing
    asking_blocks := []
    asking_hash := none
    ask_time := env.now
    last_sent_transactions := []
    expired := false
    confirmation := if st0.fork_block.isNone then ForkConfirmation.Confirmed
      else ForkConfirmation.Unconfirmed
    asking_snapshot_data := none
    snapshot_hash := if warp_protocol then some r.snapshot_hash else none
    snapshot_number := if warp_protocol then some r.snapshot_number else none
    block_set := none }
  if env.is_expired then (st0, [])
  else if (lookupPeer st0.peers peer_id).isSome then (st0, [])
  else if peer.genesis != env.chain.genesis_hash then (st0, [Action.disablePeer peer_id])
  else if peer.network_id != st0.network_id then (st0, [Action.disablePeer peer_id])
  else if (warp_protocol && peer.protocol_version != PAR_PROTOCOL_VERSION_1 &&
           peer.protocol_version != PAR_PROTOCOL_VERSION_2 &&
           peer.protocol_version != PAR_PROTOCOL_VERSION_3) ||
          (!warp_protocol && peer.protocol_version != ETH_PROTOCOL_VERSION_63 &&
           peer.protocol_version != ETH_PROTOCOL_VERSION_62) then
    (st0, [Action.disablePeer peer_id])
  else
    let st1 := if st0.sync_start_time.isNone then
        { st0 with sync_start_time := some env.now }
      else st0
    let st2 := { st1 with
      peers := ((peer_id, peer) :: st1.peers),
      active_peers := if st1.active_peers.contains peer_id then st1.active_peers
        else (peer_id :: st1.active_peers) }
    match st2.fork_block with
    | some fb => request_fork_header_r env st2 peer_id fb.1
    | none => sync_peer env fuel st2 peer_id false

/-- Main (non fork-probe) part of ChainSync::on_peer_block_headers: clear
the download markers, unconditionally reset the asking state, drop
unexpected or disallowed responses, feed the headers to the owning
downloader and handle its verdict (Useless, Invalid, Reset, None), then
collect blocks and resume. -/
def on_peer_block_headers_main (env : Env) (fuel : Nat) (st : SyncSt)
    (peer_id : Nat) (_r : List (List Nat)) : SyncSt × List Action :=
  let a0 := clear_peer_download st peer_id
  let expected_hash := (lookupPeer st.peers peer_id).bind (fun p => p.asking_hash)
  let allowed := (lookupPeer st.peers peer_id).elim false (fun p => p.is_allowed)
  let block_set :=
    ((lookupPeer st.peers peer_id).bind (fun p => p.block_set)).getD BlockSet.NewBlocks
  let (st1, reset_ok) := reset_peer_asking st peer_id PeerAsking.BlockHeaders
  if !reset_ok || expected_hash.isNone || !allowed then
    let r2 := continue_sync env fuel st1
    (r2.1, a0 ++ r2.2)
  else if (st1.state == SyncState.Idle || st1.state == SyncState.WaitingPeers) &&
          !st1.old_blocks then
    let r2 := continue_sync env fuel st1
    (r2.1, a0 ++ r2.2)
  else if st1.state == SyncState.Waiting then
    let r2 := continue_sync env fuel st1
    (r2.1, a0 ++ r2.2)
  else if block_set == BlockSet.OldBlocks && !st1.old_blocks then
    let r2 := continue_sync env fuel st1
    (r2.1, a0 ++ r2.2)
  else
    let aImp := [Action.importHeaders peer_id block_set]
    match env.import_headers_result with
    | HeadersImport.invalid =>
      let st2 := deactivate_peer st1 peer_id
      let r3 := continue_sync env fuel st2
      (r3.1, a0 ++ aImp ++ [Action.disablePeer peer_id] ++ r3.2)
    | HeadersImport.useless =>
      let st2 := deactivate_peer st1 peer_id
      let (st3, a3) := collect_blocks env fuel st2 block_set
      let r4 := sync_peer env fuel st3 peer_id false
      let r5 := continue_sync env fuel r4.1
      (r5.1, a0 ++ aImp ++ a3 ++ r4.2 ++ r5.2)
    | HeadersImport.reset =>
      let st2 := { st1 with peers := st1.peers.map (fun kp =>
        if kp.2.block_set == some block_set then (kp.1, kp.2.reset_asking) else kp) }
      let (st3, a3) := collect_blocks env fuel st2 block_set
      let r4 := sync_peer env fuel st3 peer_id false
      let r5 := continue_sync env fuel r4.1
      (r5.1, a0 ++ aImp ++ a3 ++ r4.2 ++ r5.2)
    | HeadersImport.noAction =>
      let (st3, a3) := collect_blocks env fuel st1 block_set
      let r4 := sync_peer env fuel st3 peer_id false
      let r5 := continue_sync env fuel r4.1
      (r5.1, a0 ++ aImp ++ a3 ++ r4.2 ++ r5.2)

/-- ChainSync::on_peer_block_headers: a peer whose asking is ForkHeader is
handled by the fork-confirmation branch (one header expected, its keccak
compared against the configured fork hash); every other peer goes through
the main import path. -/
def on_peer_block_headers (env : Env) (fuel : Nat) (st : SyncSt)
    (peer_id : Nat) (r : List (List Nat)) : SyncSt × List Action :=
  match lookupPeer st.peers peer_id with
  | some peer0 =>
    if peer0.asking == PeerAsking.ForkHeader then
      let stA := { st with peers := setPeer st.peers peer_id (fun p =>
        { p with asking := PeerAsking.Nothing }) }
      match st.fork_block with
      | none => (stA, [])
      | some fb =>
        match r with
        | [header] =>
          if env.keccak header == fb.2 then
            let stB := { stA with peers := setPeer stA.peers peer_id (fun p =>
              { p with confirmation := ForkConfirmation.Confirmed }) }
            let aOv := if !(env.overlay_contains fb.1) then
                [Action.chainOverlayInsert fb.1 header]
              else []
            let r2 := sync_peer env fuel stB peer_id false
            (r2.1, aOv ++ r2.2)
          else (stA, [Action.disablePeer peer_id])
        | _ =>
          let stB := { stA with peers := setPeer stA.peers peer_id (fun p =>
            { p with confirmation := ForkConfirmation.TooShort }) }
          sync_peer env fuel stB peer_id false
    else on_peer_block_headers_main env fuel st peer_id r
  | none => on_peer_block_headers_main env fuel st peer_id r

/-- ChainSync::on_peer_block_bodies: clear the download markers, reset the
asking state, then import the bodies through the owning downloader. -/
def on_peer_block_bodies (env : Env) (fuel : Nat) (st : SyncSt)
    (peer_id : Nat) (item_count : Nat) : SyncSt × List Action :=
  let a0 := clear_peer_download st peer_id
  let block_set :=
    ((lookupPeer st.peers peer_id).bind (fun p => p.block_set)).getD BlockSet.NewBlocks
  let (st1, reset_ok) := reset_peer_asking st peer_id PeerAsking.BlockBodies
  if !reset_ok then
    let r2 := continue_sync env fuel st1
    (r2.1, a0 ++ r2.2)
  else if item_count == 0 then
    let st2 := deactivate_peer st1 peer_id
    let r3 := continue_sync env fuel st2
    (r3.1, a0 ++ r3.2)
  else if st1.state == SyncState.Waiting then
    let r3 := continue_sync env fuel st1
    (r3.1, a0 ++ r3.2)
  else if block_set == BlockSet.OldBlocks && !st1.old_blocks then
    let r3 := continue_sync env fuel st1
    (r3.1, a0 ++ r3.2)
  else
    let aImp := [Action.importBodies peer_id block_set]
    match env.import_bodies_result with
    | BodiesImport.invalid =>
      let st2 := deactivate_peer st1 peer_id
      let r3 := continue_sync env fuel st2
      (r3.1, a0 ++ aImp ++ [Action.disablePeer peer_id] ++ r3.2)
    | BodiesImport.useless =>
      let st2 := deactivate_peer st1 peer_id
      let (st3, a3) := collect_blocks env fuel st2 block_set
      let r4 := sync_peer env fuel st3 peer_id false
      let r5 := continue_sync env fuel r4.1
      (r5.1, a0 ++ aImp ++ a3 ++ r4.2 ++ r5.2)
    | BodiesImport.ok =>
      let (st3, a3) := collect_blocks env fuel st1 block_set
      let r4 := sync_peer env fuel st3 peer_id false
      let r5 := continue_sync env fuel r4.1
      (r5.1, a0 ++ aImp ++ a3 ++ r4.2 ++ r5.2)

/-- ChainSync::on_peer_block_receipts: same discipline as bodies with the
receipts import. -/
def on_peer_block_receipts (env : Env) (fuel : Nat) (st : SyncSt)
    (peer_id : Nat) (item_count : Nat) : SyncSt × List Action :=
  let a0 := clear_peer_download st peer_id
  let block_set :=
    ((lookupPeer st.peers peer_id).bind (fun p => p.block_set)).getD BlockSet.NewBlocks
  let (st1, reset_ok) := reset_peer_asking st peer_id PeerAsking.BlockReceipts
  if !reset_ok then
    let r2 := continue_sync env fuel st1
    (r2.1, a0 ++ r2.2)
  else if item_count == 0 then
    let st2 := deactivate_peer st1 peer_id
    let r3 := continue_sync env fuel st2
    (r3.1, a0 ++ r3.2)
  else if st1.state == SyncState.Waiting then
    let r3 := continue_sync env fuel st1
    (r3.1, a0 ++ r3.2)
  else if block_set == BlockSet.OldBlocks && !st1.old_blocks then
    let r3 := continue_sync env fuel st1
    (r3.1, a0 ++ r3.2)
  else
    let aImp := [Action.importReceipts peer_id block_set]
    match env.import_receipts_result with
    | BodiesImport.invalid =>
      let st2 := deactivate_peer st1 peer_id
      let r3 := continue_sync env fuel st2
      (r3.1, a0 ++ aImp ++ [Action.disablePeer peer_id] ++ r3.2)
    | BodiesImport.useless =>
      let st2 := deactivate_peer st1 peer_id
      let (st3, a3) := collect_blocks env fuel st2 block_set
      let r4 := sync_peer env fuel st3 peer_id false
      let r5 := continue_sync env fuel r4.1
      (r5.1, a0 ++ aImp ++ a3 ++ r4.2 ++ r5.2)
    | BodiesImport.ok =>
      let (st3, a3) := collect_blocks env fuel st1 block_set
      let r4 := sync_peer env fuel st3 peer_id false
      let r5 := continue_sync env fuel r4.1
      (r5.1, a0 ++ aImp ++ a3 ++ r4.2 ++ r5.2)

/-- Decoded NewBlock packet: the advertised total difficulty and the block
header (raw bytes and decoded number); the keccak of the raw header bytes
is both the trace hash and header.hash() of the source. -/
structure NewBlockPacket where
  difficulty : Nat
  header_raw : List Nat
  header_number : Nat
deriving DecidableEq, Repr

/-- ChainSync::on_peer_new_block: bump the peer difficulty and latest
hash, track the highest block, disable for too-ancient blocks, import via
the chain client, and on an unknown parent in Idle force a sync_peer on
the sender. -/
def on_peer_new_block (env : Env) (fuel : Nat) (st : SyncSt) (peer_id : Nat)
    (pkt : NewBlockPacket) : SyncSt × List Action :=
  if !((lookupPeer st.peers peer_id).elim false PeerInfo.can_sync) then (st, [])
  else
    let difficulty := pkt.difficulty
    let st1 := { st with peers := setPeer st.peers peer_id (fun p =>
      if p.difficulty.elim true (fun pd => decide (difficulty > pd)) then
        { p with difficulty := some difficulty }
      else p) }
    let h := env.keccak pkt.header_raw
    let st2 := if pkt.header_number > st1.highest_block.getD 0 then
        { st1 with highest_block := some pkt.header_number }
      else st1
    let st3 := { st2 with peers := setPeer st2.peers peer_id (fun p =>
      { p with latest_hash := h }) }
    let last_imported_number := st3.new_blocks_last_imported
    if last_imported_number > pkt.header_number &&
       last_imported_number - pkt.header_number > MAX_NEW_BLOCK_AGE then
      (st3, [Action.disablePeer peer_id])
    else
      let afterImport : SyncSt × List Action :=
        match env.import_block_result with
        | ImportBlockResult.alreadyInChain => (st3, [])
        | ImportBlockResult.alreadyQueued => (st3, [])
        | ImportBlockResult.ok =>
          let r := complete_sync env st3
          (r.1, r.2 ++ [Action.markAsKnown h pkt.header_number])
        | ImportBlockResult.unknownParent => (st3, [])
        | ImportBlockResult.otherError => (st3, [Action.disablePeer peer_id])
      let unknown := env.import_block_result == ImportBlockResult.unknownParent
      let (st4, a4) := afterImport
      let (st5, a5) :=
        if unknown then
          if st4.state != SyncState.Idle then (st4, [])
          else sync_peer env fuel st4 peer_id true
        else (st4, [])
      let r6 := continue_sync env fuel st5
      (r6.1, a4 ++ a5 ++ r6.2)

/-- ChainSync::on_snapshot_manifest: drop responses from peers that cannot
sync, reset the asking state, validate the manifest version against the
snapshot service, seed the snapshot downloader and begin restoration. -/
def on_snapshot_manifest (env : Env) (fuel : Nat) (st : SyncSt) (peer_id : Nat)
    (manifest_raw : List Nat) : SyncSt × List Action :=
  if !((lookupPeer st.peers peer_id).elim false PeerInfo.can_sync) then (st, [])
  else
    let a0 := clear_peer_download st peer_id
    let (st1, reset_ok) := reset_peer_asking st peer_id PeerAsking.SnapshotManifest
    if !reset_ok || st1.state != SyncState.SnapshotManifest then
      let r2 := continue_sync env fuel st1
      (r2.1, a0 ++ r2.2)
    else
      match env.manifest_decode_version with
      | none =>
        let r2 := continue_sync env fuel st1
        (r2.1, a0 ++ [Action.disablePeer peer_id] ++ r2.2)
      | some version =>
        let is_supported := env.snapshot_supported_versions.elim false
          (fun lh => decide (version ≥ lh.1) && decide (version ≤ lh.2))
        if !is_supported then
          let r2 := continue_sync env fuel st1
          (r2.1, a0 ++ [Action.disablePeer peer_id] ++ r2.2)
        else
          let st2 := { st1 with
            snapshot := st1.snapshot.reset_to env.manifest_total_chunks
              (env.keccak manifest_raw),
            state := SyncState.SnapshotData }
          let r3 := sync_peer env fuel st2 peer_id false
          let r4 := continue_sync env fuel r3.1
          (r4.1, a0 ++ [Action.beginRestore] ++ r3.2 ++ r4.2)

/-- ChainSync::on_snapshot_data: drop responses from peers that cannot
sync, reset the asking state, abandon an inactive or failed restoration
(noting a failed manifest hash as bad), validate and forward the chunk,
and pause in SnapshotWaiting when all chunks are in. -/
def on_snapshot_data (env : Env) (fuel : Nat) (st : SyncSt) (peer_id : Nat) :
    SyncSt × List Action :=
  if !((lookupPeer st.peers peer_id).elim false PeerInfo.can_sync) then (st, [])
  else
    let a0 := clear_peer_download st peer_id
    let (st1, reset_ok) := reset_peer_asking st peer_id PeerAsking.SnapshotData
    if !reset_ok || (st1.state != SyncState.SnapshotData &&
        st1.state != SyncState.SnapshotWaiting) then
      let r2 := continue_sync env fuel st1
      (r2.1, a0 ++ r2.2)
    else
      match env.snapshot_service_status with
      | RestorationStatus.Inactive =>
        let st2 := { st1 with state := SyncState.WaitingPeers }
        let st3 := { st2 with snapshot := st2.snapshot.clear }
        let r4 := continue_sync env fuel st3
        (r4.1, a0 ++ r4.2)
      | RestorationStatus.Failed =>
        let st2 := { st1 with state := SyncState.WaitingPeers }
        let st2b := match st2.snapshot.cur_hash with
          | some hsh => { st2 with snapshot := st2.snapshot.note_bad hsh }
          | none => st2
        let st3 := { st2b with snapshot := st2b.snapshot.clear }
        let r4 := continue_sync env fuel st3
        (r4.1, a0 ++ r4.2)
      | RestorationStatus.Ongoing _ _ =>
        match env.validate_chunk_result with
        | some (ChunkKind.block hsh) =>
          let st2 := { st1 with snapshot := st1.snapshot.complete_one }
          let st3 := if st2.snapshot.complete then
              { st2 with state := SyncState.SnapshotWaiting }
            else st2
          let r4 := sync_peer env fuel st3 peer_id false
          let r5 := continue_sync env fuel r4.1
          (r5.1, a0 ++ [Action.restoreBlockChunk hsh] ++ r4.2 ++ r5.2)
        | some (ChunkKind.state hsh) =>
          let st2 := { st1 with snapshot := st1.snapshot.complete_one }
          let st3 := if st2.snapshot.complete then
              { st2 with state := SyncState.SnapshotWaiting }
            else st2
          let r4 := sync_peer env fuel st3 peer_id false
          let r5 := continue_sync env fuel r4.1
          (r5.1, a0 ++ [Action.restoreStateChunk hsh] ++ r4.2 ++ r5.2)
        | none =>
          let r2 := continue_sync env fuel st1
          (r2.1, a0 ++ [Action.disconnectPeer peer_id] ++ r2.2)

/-- ChainSync::on_peer_transactions: transactions are accepted only with an
empty chain queue in the Idle or NewBlocks states from a peer that can
sync; oversized encoded transactions are skipped one by one and the rest
are queued. -/
def on_peer_transactions (env : Env) (st : SyncSt) (peer_id : Nat)
    (txs : List (List Nat)) : List Action :=
  if !env.is_chain_queue_empty ||
     (st.state != SyncState.Idle && st.state != SyncState.NewBlocks) then []
  else if !((lookupPeer st.peers peer_id).elim false PeerInfo.can_sync) then []
  else
    let transactions := txs.filter (fun tx => !(tx.length > MAX_TRANSACTION_SIZE))
    [Action.queueTransactions transactions peer_id]

/-- ChainSync::send_status: the status payload, five fields, extended by
the manifest hash and manifest block number when the warp protocol is
negotiated; with an active ancient downloader the manifest is withheld and
the zero hash with block number zero is appended instead. -/
def send_status (env : Env) (st : SyncSt) (peer : Nat) : List Nat :=
  let warp_protocol_version := env.warp_protocol_version peer
  let warp_protocol := warp_protocol_version != 0
  let protocol := if warp_protocol then warp_protocol_version else ETH_PROTOCOL_VERSION_63
  let chain := env.chain
  let base := [protocol, st.network_id, chain.total_difficulty,
    chain.best_block_hash, chain.genesis_hash]
  if warp_protocol then
    let manifest := if st.old_blocks then none else env.snapshot_service_manifest
    let block_number := manifest.elim 0 (fun m => m.block_number)
    let manifest_hash := manifest.elim 0 (fun m => env.keccak m.raw)
    base ++ [manifest_hash, block_number]
  else base

/-- Round of the square root of a natural number: the least r with
4n < (2r+1)^2, that is floor(sqrt n + 1/2); this models the
(n as f64).powf(0.5).round() of the source, which is exact on the
peer-count range. -/
def natRoundSqrt (n : Nat) : Nat :=
  ((List.range (n + 2)).filter (fun r => decide (4 * n < (2 * r + 1) ^ 2))).headD 0

/-- ChainSync::select_random_peers: take round(sqrt(n)) of the peers,
clamped first by MAX_PEERS_PROPAGATION and then by MIN_PEERS_PROPAGATION,
after shuffling (the random source is the injected shuffle). -/
def select_random_peers (shuffle : List Nat → List Nat) (peers : List Nat) :
    List Nat :=
  let count0 := natRoundSqrt peers.length
  let count1 := min count0 MAX_PEERS_PROPAGATION
  let count2 := max count1 MIN_PEERS_PROPAGATION
  (shuffle peers).take count2

/-- A baseline confirmed peer record for concrete states. -/
def peer0 : PeerInfo := {
  protocol_version := 63, genesis := 7, network_id := 1, latest_hash := 0,
  difficulty := none, asking := PeerAsking.Nothing, asking_blocks := [],
  asking_hash := none, asking_snapshot_data := none, ask_time := 0,
  last_sent_transactions := [], expired := false,
  confirmation := ForkConfirmation.Confirmed, snapshot_hash := none,
  snapshot_number := none, block_set := none }

/-- A baseline chain info for concrete environments. -/
def chain0 : ChainInfo := {
  best_block_number := 0, best_block_hash := 100, genesis_hash := 7,
  total_difficulty := 5, pending_total_difficulty := 5,
  ancient_block_hash := none, ancient_block_number := none,
  first_block_hash := none }

/-- A baseline oracle environment for concrete runs. -/
def env0 : Env := {
  now := 0, chain := chain0, queue_is_full := false, is_chain_queue_empty := true,
  block_status := fun _ => BlockStatus.Unknown,
  import_block_result := ImportBlockResult.ok,
  snapshot_supported_versions := none,
  snapshot_service_status := RestorationStatus.Inactive,
  snapshot_service_manifest := none,
  warp_protocol_version := fun _ => 0,
  is_expired := false, overlay_contains := fun _ => false,
  keccak := fun l => l.foldl (fun a b => a * 31 + b + 1) 7,
  request_blocks_new := none, request_blocks_old := none,
  import_headers_result := HeadersImport.noAction,
  import_bodies_result := BodiesImport.ok,
  import_receipts_result := BodiesImport.ok,
  collect_new_invalid := false, collect_old_invalid := false,
  old_blocks_is_complete := false, snapshot_chunk := none,
  validate_chunk_result := none, manifest_decode_version := none,
  manifest_total_chunks := 0,
  shuffle3 := fun l => l, shuffle_ids := fun l => l }

/-- A baseline empty snapshot downloader. -/
def snap0 : SnapshotDown := {
  have_manifest := false, cur_hash := none, known_bad := [],
  done := 0, total := 0, complete := false }

/-- A baseline sync state for concrete runs. -/
def st0 : SyncSt := {
  state := SyncState.Idle, peers := [], active_peers := [],
  handshaking_peers := [], highest_block := none, old_blocks := false,
  new_blocks_last_imported := 0, network_id := 1, fork_block := none,
  snapshot := snap0, sync_start_time := none, download_old_blocks := false,
  warp_sync := WarpSync.Disabled }

/-- Penalty actions: disabling or disconnecting a peer. -/
def Action.isPenalty : Action → Bool
  | Action.disablePeer _ => true
  | Action.disconnectPeer _ => true
  | _ => false

/-- Downloader import actions. -/
def Action.isImport : Action → Bool
  | Action.importHeaders _ _ => true
  | Action.importBodies _ _ => true
  | Action.importReceipts _ _ => true
  | _ => false

/-- Block request actions. -/
def Action.isRequestBlocks : Action → Bool
  | Action.requestBlocks _ _ _ => true
  | _ => false

theorem lookupPeer_nil (q : Nat) : lookupPeer [] q = none := rfl

theorem lookupPeer_cons (k : Nat) (p : PeerInfo) (ps : List (Nat × PeerInfo))
    (q : Nat) :
    lookupPeer ((k, p) :: ps) q = if k = q then some p else lookupPeer ps q := by
  by_cases h : k = q
  · subst h
    simp [lookupPeer, List.lookup]
  · have h2 : (q == k) = false := by
      simp
      omega
    simp [lookupPeer, List.lookup, h2, h]

theorem lookupPeer_setPeer (ps : List (Nat × PeerInfo)) (pid q : Nat)
    (f : PeerInfo → PeerInfo) :
    lookupPeer (setPeer ps pid f) q =
      if q = pid then (lookupPeer ps q).map f else lookupPeer ps q := by
  induction ps with
  | nil => simp [setPeer, lookupPeer, List.lookup]
  | cons kp ps ih =>
    obtain ⟨k, p⟩ := kp
    by_cases hkp : k = pid
    · subst hkp
      by_cases hkq : k = q
      · subst hkq
        simp [setPeer, lookupPeer_cons] at ih ⊢
      · simp only [setPeer, List.map] at ih ⊢
        simp only [beq_self_eq_true, if_true]
        rw [lookupPeer_cons, lookupPeer_cons, if_neg hkq, if_neg hkq, ih]
    · have hbeq : (k == pid) = false := by
        simp
        omega
      by_cases hkq : k = q
      · subst hkq
        simp only [setPeer, List.map] at ih ⊢
        rw [hbeq]
        simp only [Bool.false_eq_true, if_false]
        rw [lookupPeer_cons, lookupPeer_cons, if_pos rfl, if_pos rfl, if_neg hkp]
      · simp only [setPeer, List.map] at ih ⊢
        rw [hbeq]
        simp only [Bool.false_eq_true, if_false]
        rw [lookupPeer_cons, lookupPeer_cons, if_neg hkq, if_neg hkq, ih]

theorem mem_of_lookupPeer (ps : List (Nat × PeerInfo)) (q : Nat) (p : PeerInfo)
    (h : lookupPeer ps q = some p) : (q, p) ∈ ps := by
  induction ps with
  | nil => simp [lookupPeer, List.lookup] at h
  | cons kp ps ih =>
    obtain ⟨k, v⟩ := kp
    rw [lookupPeer_cons] at h
    by_cases hkq : k = q
    · subst hkq
      simp at h
      simp [h]
    · simp [hkq] at h
      exact List.mem_cons_of_mem _ (ih h)

/-- Lookup through a key-preserving map over the peer list. -/
theorem lookupPeer_map_vals (g : Nat × PeerInfo → PeerInfo)
    (ps : List (Nat × PeerInfo)) (q : Nat) :
    lookupPeer (ps.map (fun kp => (kp.1, g kp))) q =
      match lookupPeer ps q with
      | some p => some (g (q, p))
      | none => none := by
  induction ps with
  | nil => simp [lookupPeer, List.lookup]
  | cons kp ps ih =>
    obtain ⟨k, p⟩ := kp
    by_cases hkq : k = q
    · subst hkq
      simp [lookupPeer_cons]
    · simp [lookupPeer_cons, hkq, ih]

/-- Generic foldl invariant preservation. -/
theorem foldl_preserve {α β : Type} (P : β → Prop) (step : β → α → β)
    (l : List α) (init : β) (hinit : P init)
    (h : ∀ s x, P s → P (step s x)) : P (l.foldl step init) := by
  induction l generalizing init with
  | nil => exact hinit
  | cons x xs ih => exact ih _ (h _ _ hinit)

/-- Per-peer evolution relation inside the continue_sync machinery: the
confirmation and advertised snapshot hash never change there, and a peer
left expired with cleared request fields stays that way. -/
def peerFrame (p p' : PeerInfo) : Prop :=
  p'.confirmation = p.confirmation ∧ p'.snapshot_hash = p.snapshot_hash ∧
  ((p.expired = true ∧ p.asking_hash = none ∧ p.asking_blocks = []) →
   (p'.expired = true ∧ p'.asking_hash = none ∧ p'.asking_blocks = []))

theorem peerFrame_refl (p : PeerInfo) : peerFrame p p := by
  simp [peerFrame]

theorem peerFrame_trans {p q r : PeerInfo} (h1 : peerFrame p q)
    (h2 : peerFrame q r) : peerFrame p r := by
  obtain ⟨c1, s1, e1⟩ := h1
  obtain ⟨c2, s2, e2⟩ := h2
  exact ⟨c2.trans c1, s2.trans s1, fun h => e2 (e1 h)⟩

/-- State evolution allowed inside the continue_sync machinery when no
block request is available and the queue is not full. -/
def allowedNext (s s' : SyncState) : Prop :=
  s' = s ∨ s' = SyncState.Idle ∨ s' = SyncState.SnapshotWaiting

theorem allowedNext_refl (s : SyncState) : allowedNext s s := Or.inl rfl

theorem allowedNext_trans {s m s' : SyncState} (h1 : allowedNext s m)
    (h2 : allowedNext m s') : allowedNext s s' := by
  rcases h2 with h | h | h
  · rw [h]; exact h1
  · exact Or.inr (Or.inl h)
  · exact Or.inr (Or.inr h)

/-- Frame property of one full sync_go outcome. -/
def goFrame (st : SyncSt) (out : SyncSt × List Action) : Prop :=
  (∀ a ∈ out.2, a.isPenalty = false ∧ a.isImport = false) ∧
  out.1.warp_sync = st.warp_sync ∧
  out.1.old_blocks = st.old_blocks ∧
  (∀ q p, lookupPeer st.peers q = some p →
    ∃ p', lookupPeer out.1.peers q = some p' ∧ peerFrame p p')

theorem goFrame_refl (st : SyncSt) : goFrame st (st, []) := by
  refine ⟨by simp, rfl, rfl, ?_⟩
  intro q p h
  exact ⟨p, h, peerFrame_refl p⟩

theorem goFrame_trans {st : SyncSt} {out1 : SyncSt × List Action}
    {st2 : SyncSt} {out2 : SyncSt × List Action}
    (h1 : goFrame st out1) (heq : out1.1 = st2) (h2 : goFrame st2 out2)
    (acts : List Action) (hacts : acts = out1.2 ++ out2.2) :
    goFrame st (out2.1, acts) := by
  obtain ⟨b1, w1, o1, f1⟩ := h1
  obtain ⟨b2, w2, o2, f2⟩ := h2
  subst heq
  refine ⟨?_, by rw [w2, w1], by rw [o2, o1], ?_⟩
  · intro a ha
    rw [hacts] at ha
    rcases List.mem_append.mp ha with h | h
    · exact b1 a h
    · exact b2 a h
  · intro q p h
    obtain ⟨p1, hp1, hf1⟩ := f1 q p h
    obtain ⟨p2, hp2, hf2⟩ := f2 q p1 hp1
    exact ⟨p2, hp2, peerFrame_trans hf1 hf2⟩

/-- Changing only the state-like scalar fields keeps the peer frame. -/
theorem goFrame_restate {st : SyncSt} {out : SyncSt × List Action}
    (h : goFrame st out) (st2 : SyncSt)
    (hp : st2.peers = out.1.peers) (hw : st2.warp_sync = out.1.warp_sync)
    (ho : st2.old_blocks = out.1.old_blocks) :
    goFrame st (st2, out.2) := by
  obtain ⟨b, w, o, f⟩ := h
  refine ⟨b, by rw [hw, w], by rw [ho, o], ?_⟩
  intro q p hq
  rw [hp]
  exact f q p hq

/-- Frame through a setPeer whose update function keeps the frame fields
of every record. -/
theorem setPeer_frame_all (ps : List (Nat × PeerInfo)) (pid : Nat)
    (f : PeerInfo → PeerInfo) (hf : ∀ p, peerFrame p (f p)) :
    ∀ q p, lookupPeer ps q = some p →
      ∃ p', lookupPeer (setPeer ps pid f) q = some p' ∧ peerFrame p p' := by
  intro q p h
  rw [lookupPeer_setPeer]
  by_cases hq : q = pid
  · rw [if_pos hq, h]
    exact ⟨f p, rfl, hf p⟩
  · rw [if_neg hq]
    exact ⟨p, h, peerFrame_refl p⟩

/-- Frame through a setPeer at a target known not to be expired. -/
theorem setPeer_frame_target (ps : List (Nat × PeerInfo)) (pid : Nat)
    (f : PeerInfo → PeerInfo) (peer : PeerInfo)
    (hpeer : lookupPeer ps pid = some peer) (hexp : peer.expired = false)
    (hf : (f peer).confirmation = peer.confirmation ∧
          (f peer).snapshot_hash = peer.snapshot_hash) :
    ∀ q p, lookupPeer ps q = some p →
      ∃ p', lookupPeer (setPeer ps pid f) q = some p' ∧ peerFrame p p' := by
  intro q p h
  rw [lookupPeer_setPeer]
  by_cases hq : q = pid
  · subst hq
    rw [h] at hpeer
    injection hpeer with hpe
    subst hpe
    rw [if_pos rfl, h]
    refine ⟨f p, rfl, hf.1, hf.2, ?_⟩
    intro hP5
    rw [hP5.1] at hexp
    cases hexp
  · rw [if_neg hq]
    exact ⟨p, h, peerFrame_refl p⟩

theorem request_blocks_r_goFrame (env : Env) (st : SyncSt) (pid : Nat)
    (req : BlockRequest) (bs : BlockSet) (peer : PeerInfo)
    (hpeer : lookupPeer st.peers pid = some peer) (hexp : peer.expired = false) :
    goFrame st (request_blocks_r env st pid req bs) := by
  refine ⟨?_, rfl, rfl, ?_⟩
  · intro a ha
    simp only [request_blocks_r, List.mem_singleton] at ha
    subst ha
    simp [Action.isPenalty, Action.isImport]
  · intro q p h
    simp only [request_blocks_r]
    refine setPeer_frame_target st.peers pid _ peer hpeer hexp ?_ q p h
    cases req <;> simp

theorem request_snapshot_manifest_r_goFrame (env : Env) (st : SyncSt)
    (pid : Nat) : goFrame st (request_snapshot_manifest_r env st pid) := by
  refine ⟨?_, rfl, rfl, ?_⟩
  · intro a ha
    simp only [request_snapshot_manifest_r, List.mem_singleton] at ha
    subst ha
    simp [Action.isPenalty, Action.isImport]
  · intro q p h
    simp only [request_snapshot_manifest_r]
    refine setPeer_frame_all st.peers pid _ ?_ q p h
    intro p2
    simp [peerFrame]

theorem request_snapshot_data_r_goFrame (env : Env) (st : SyncSt)
    (pid : Nat) : goFrame st (request_snapshot_data_r env st pid) := by
  unfold request_snapshot_data_r
  cases hc : env.snapshot_chunk with
  | none => exact goFrame_refl st
  | some chunk =>
    refine ⟨?_, rfl, rfl, ?_⟩
    · intro a ha
      simp only [List.mem_singleton] at ha
      subst ha
      simp [Action.isPenalty, Action.isImport]
    · intro q p h
      show ∃ p', lookupPeer (setPeer st.peers pid (fun p =>
        { p with asking := PeerAsking.SnapshotData,
                 asking_snapshot_data := some chunk, ask_time := env.now })) q =
          some p' ∧ peerFrame p p'
      exact setPeer_frame_all st.peers pid _ (fun p2 => by simp [peerFrame]) q p h

theorem reset_asking_peerFrame (p : PeerInfo) : peerFrame p p.reset_asking := by
  simp only [PeerInfo.reset_asking]
  split <;> simp [peerFrame] <;> tauto

theorem reset_goFrame (env : Env) (st : SyncSt) : goFrame st (reset env st) := by
  refine ⟨?_, rfl, rfl, ?_⟩
  · intro a ha
    simp only [reset, List.mem_singleton] at ha
    subst ha
    simp [Action.isPenalty, Action.isImport]
  · intro q p h
    simp only [reset]
    have hmap : (fun (kp : Nat × PeerInfo) =>
        if kp.2.block_set != some BlockSet.OldBlocks then
          let p1 := kp.2.reset_asking
          let p2 := if p1.difficulty.isNone then
              { p1 with difficulty := some env.chain.pending_total_difficulty }
            else p1
          (kp.1, p2)
        else kp) =
        (fun (kp : Nat × PeerInfo) => (kp.1,
          if kp.2.block_set != some BlockSet.OldBlocks then
            (if kp.2.reset_asking.difficulty.isNone then
              { kp.2.reset_asking with
                difficulty := some env.chain.pending_total_difficulty }
            else kp.2.reset_asking)
          else kp.2)) := by
      funext kp
      by_cases hb : kp.2.block_set != some BlockSet.OldBlocks <;> simp [hb]
    rw [hmap, lookupPeer_map_vals _ st.peers q, h]
    refine ⟨_, rfl, ?_⟩
    by_cases hb : p.block_set != some BlockSet.OldBlocks
    · have hfr := reset_asking_peerFrame p
      by_cases hd : p.reset_asking.difficulty.isNone <;>
        simp only [hb, if_true, hd, if_false] <;>
        simp_all [peerFrame]
    · simp only [hb, if_false]
      exact peerFrame_refl p

theorem complete_sync_goFrame (env : Env) (st : SyncSt) :
    goFrame st (complete_sync env st) := by
  unfold complete_sync
  exact goFrame_restate (reset_goFrame env st) _ rfl rfl rfl

theorem clear_peer_download_benign (st : SyncSt) (pid : Nat) :
    ∀ a ∈ clear_peer_download st pid, a.isPenalty = false ∧ a.isImport = false := by
  unfold clear_peer_download
  intro a ha
  split at ha
  · simp at ha
  · split at ha <;> (try split at ha) <;>
      simp_all [Action.isPenalty, Action.isImport]

theorem snapshot_data_request_goFrame (env : Env) (st : SyncSt) (pid : Nat)
    (psh : Option Nat) : goFrame st (snapshot_data_request env st pid psh) := by
  unfold snapshot_data_request
  split
  · have h1 := request_snapshot_data_r_goFrame env st pid
    obtain ⟨b1, w1, o1, f1⟩ := h1
    refine ⟨?_, w1, o1, f1⟩
    intro a ha
    rcases List.mem_append.mp ha with h | h
    · exact clear_peer_download_benign st pid a h
    · exact b1 a h
  · exact goFrame_refl st

/-- Transport of the frame along an equality of the scalar prestate
fields. -/
theorem goFrame_prestate {st st' : SyncSt} {out : SyncSt × List Action}
    (h : goFrame st' out) (hp : st'.peers = st.peers)
    (hw : st'.warp_sync = st.warp_sync) (ho : st'.old_blocks = st.old_blocks) :
    goFrame st out := by
  obtain ⟨b, w, o, f⟩ := h
  refine ⟨b, by rw [w, hw], by rw [o, ho], ?_⟩
  intro q p hq
  exact f q p (by rw [hp]; exact hq)

theorem start_snapshot_sync_goFrame (env : Env) (st : SyncSt)
    (peers : List Nat) : goFrame st (start_snapshot_sync env st peers) := by
  simp only [start_snapshot_sync]
  split
  · have hstep : ∀ (acc : SyncSt × List Action) (p : Nat),
        goFrame st acc →
        goFrame st (if (lookupPeer acc.1.peers p).elim false
            (fun q => q.asking == PeerAsking.Nothing) then
          ((request_snapshot_manifest_r env acc.1 p).1,
           acc.2 ++ (request_snapshot_manifest_r env acc.1 p).2)
        else acc) := by
      intro acc p hacc
      split
      · exact goFrame_trans hacc rfl (request_snapshot_manifest_r_goFrame env acc.1 p) _ rfl
      · exact hacc
    have hfold := foldl_preserve (goFrame st) _ peers (st, [])
      (goFrame_refl st) hstep
    exact goFrame_restate hfold _ rfl rfl rfl
  · exact goFrame_restate (goFrame_refl st) _ rfl rfl rfl

/-- Frame lemma for the whole continue_sync machinery: it emits no penalty
and no import action, keeps warp configuration and ancient-downloader
presence, and evolves every peer record inside peerFrame. -/
theorem sync_go_goFrame (env : Env) :
    ∀ fuel call st, goFrame st (sync_go env fuel call st) := by
  intro fuel
  induction fuel with
  | zero => intro call st; exact goFrame_refl st
  | succ fuel ih =>
    intro call st
    cases call with
    | maybeStart =>
      simp only [sync_go]
      split
      · exact goFrame_refl st
      split
      · exact goFrame_refl st
      split
      · split
        · apply start_snapshot_sync_goFrame
        split
        · apply start_snapshot_sync_goFrame
        · exact goFrame_refl st
      · split
        · exact goFrame_prestate (ih GoCall.cont { st with state := SyncState.Idle })
            rfl rfl rfl
        · exact goFrame_refl st
    | syncp peer_id force =>
      simp only [sync_go]
      split
      · exact goFrame_refl st
      split
      · exact goFrame_refl st
      rename_i peer hlook
      split
      · exact goFrame_refl st
      rename_i hbusy
      have hcs : peer.can_sync = true := by
        by_cases h : peer.can_sync = true
        · exact h
        · exfalso
          apply hbusy
          simp [h]
      have hexp : peer.expired = false := by
        simp [PeerInfo.can_sync] at hcs
        exact hcs.2
      split
      · exact goFrame_refl st
      split
      · exact goFrame_refl st
      split
      · split
        all_goals try exact goFrame_refl st
        all_goals try exact ih GoCall.maybeStart st
        all_goals try
          (split
           all_goals try exact snapshot_data_request_goFrame env st peer_id peer.snapshot_hash
           split
           · exact goFrame_restate (goFrame_refl st) _ rfl rfl rfl
           · exact snapshot_data_request_goFrame env st peer_id peer.snapshot_hash)
        all_goals
          (split
           · exact goFrame_restate (goFrame_refl st) _ rfl rfl rfl
           · split
             · split
               · rename_i request hreq
                 split
                 · exact goFrame_restate
                     (request_blocks_r_goFrame env st peer_id request
                       BlockSet.NewBlocks peer hlook hexp) _ rfl rfl rfl
                 · exact request_blocks_r_goFrame env st peer_id request
                     BlockSet.NewBlocks peer hlook hexp
               · split
                 · split
                   · rename_i request2 hreq2
                     exact request_blocks_r_goFrame env st peer_id request2
                       BlockSet.OldBlocks peer hlook hexp
                   · exact goFrame_refl st
                 · exact goFrame_refl st
             · split
               · split
                 · rename_i request2 hreq2
                   exact request_blocks_r_goFrame env st peer_id request2
                     BlockSet.OldBlocks peer hlook hexp
                 · exact goFrame_refl st
               · exact goFrame_refl st)
      · exact goFrame_refl st
    | cont =>
      simp only [sync_go]
      have hstep : ∀ (acc : SyncSt × List Action) (p : Nat × Nat × Nat),
          goFrame st acc →
          goFrame st (if acc.1.active_peers.contains p.1 then
              ((sync_go env fuel (GoCall.syncp p.1 false) acc.1).1,
               acc.2 ++ (sync_go env fuel (GoCall.syncp p.1 false) acc.1).2)
            else acc) := by
        intro acc p hacc
        split
        · exact goFrame_trans hacc rfl (ih (GoCall.syncp p.1 false) acc.1) _ rfl
        · exact hacc
      have hfold := foldl_preserve (goFrame st) _
        (sortByVersion (env.shuffle3 (st.peers.filterMap (fun kp =>
          if kp.2.can_sync then some (kp.1, kp.2.difficulty.getD 0, kp.2.protocol_version)
          else none)))) (st, []) (goFrame_refl st) hstep
      split
      · exact goFrame_trans hfold rfl (complete_sync_goFrame env _) _ rfl
      · exact hfold

/-- Peer fields kept intact in the quiet setting (no available block
request, warp disabled): an idle, unexpired peer with no block set and no
advertised snapshot stays that way. -/
def peerQuiet (p : PeerInfo) : Prop :=
  p.asking = PeerAsking.Nothing ∧ p.expired = false ∧ p.block_set = none ∧
  p.snapshot_hash = none

/-- Outcome property in the quiet setting: the state only moves to Idle or
SnapshotWaiting (absent queue backpressure), no block request is sent, and
quiet peers stay quiet. -/
def goQuiet (env : Env) (st : SyncSt) (out : SyncSt × List Action) : Prop :=
  (env.queue_is_full = false → allowedNext st.state out.1.state) ∧
  (∀ a ∈ out.2, a.isRequestBlocks = false) ∧
  (∀ q p, lookupPeer st.peers q = some p → peerQuiet p →
    ∃ p', lookupPeer out.1.peers q = some p' ∧ peerQuiet p')

theorem goQuiet_refl (env : Env) (st : SyncSt) : goQuiet env st (st, []) := by
  refine ⟨fun _ => allowedNext_refl _, by simp, ?_⟩
  intro q p h hq
  exact ⟨p, h, hq⟩

theorem goQuiet_trans {env : Env} {st : SyncSt} {out1 : SyncSt × List Action}
    {st2 : SyncSt} {out2 : SyncSt × List Action}
    (h1 : goQuiet env st out1) (heq : out1.1 = st2) (h2 : goQuiet env st2 out2)
    (acts : List Action) (hacts : acts = out1.2 ++ out2.2) :
    goQuiet env st (out2.1, acts) := by
  obtain ⟨s1, b1, f1⟩ := h1
  obtain ⟨s2, b2, f2⟩ := h2
  subst heq
  refine ⟨fun hq => allowedNext_trans (s1 hq) (s2 hq), ?_, ?_⟩
  · intro a ha
    rw [hacts] at ha
    rcases List.mem_append.mp ha with h | h
    · exact b1 a h
    · exact b2 a h
  · intro q p h hq
    obtain ⟨p1, hp1, hf1⟩ := f1 q p h hq
    obtain ⟨p2, hp2, hf2⟩ := f2 q p1 hp1 hf1
    exact ⟨p2, hp2, hf2⟩

theorem goQuiet_restate {env : Env} {st : SyncSt} {out : SyncSt × List Action}
    (h : goQuiet env st out) (st2 : SyncSt)
    (hp : st2.peers = out.1.peers)
    (hs : env.queue_is_full = false → allowedNext out.1.state st2.state) :
    goQuiet env st (st2, out.2) := by
  obtain ⟨s1, b1, f1⟩ := h
  refine ⟨fun hq => allowedNext_trans (s1 hq) (hs hq), b1, ?_⟩
  intro q p hq hquiet
  rw [hp]
  exact f1 q p hq hquiet

theorem goQuiet_prestate {env : Env} {st st' : SyncSt}
    {out : SyncSt × List Action} (h : goQuiet env st' out)
    (hp : st'.peers = st.peers)
    (hs : env.queue_is_full = false → allowedNext st.state st'.state) :
    goQuiet env st out := by
  obtain ⟨s1, b1, f1⟩ := h
  refine ⟨fun hq => allowedNext_trans (hs hq) (s1 hq), b1, ?_⟩
  intro q p hq hquiet
  exact f1 q p (by rw [hp]; exact hq) hquiet

theorem reset_asking_peerQuiet (p : PeerInfo) (h : peerQuiet p) :
    peerQuiet p.reset_asking := by
  obtain ⟨ha, he, hb, hs⟩ := h
  simp only [PeerInfo.reset_asking]
  split
  · rename_i hcond
    simp [ha] at hcond
  · exact ⟨ha, he, hb, hs⟩

theorem reset_goQuiet (env : Env) (st : SyncSt) :
    goQuiet env st (reset env st) := by
  refine ⟨fun _ => Or.inr (Or.inl rfl), by simp [reset, Action.isRequestBlocks], ?_⟩
  intro q p h hq
  simp only [reset]
  have hmap : (fun (kp : Nat × PeerInfo) =>
      if kp.2.block_set != some BlockSet.OldBlocks then
        let p1 := kp.2.reset_asking
        let p2 := if p1.difficulty.isNone then
            { p1 with difficulty := some env.chain.pending_total_difficulty }
          else p1
        (kp.1, p2)
      else kp) =
      (fun (kp : Nat × PeerInfo) => (kp.1,
        if kp.2.block_set != some BlockSet.OldBlocks then
          (if kp.2.reset_asking.difficulty.isNone then
            { kp.2.reset_asking with
              difficulty := some env.chain.pending_total_difficulty }
          else kp.2.reset_asking)
        else kp.2)) := by
    funext kp
    by_cases hb : kp.2.block_set != some BlockSet.OldBlocks <;> simp [hb]
  rw [hmap, lookupPeer_map_vals _ st.peers q, h]
  refine ⟨_, rfl, ?_⟩
  have hra := reset_asking_peerQuiet p hq
  by_cases hb : p.block_set != some BlockSet.OldBlocks <;>
    by_cases hd : p.reset_asking.difficulty.isNone <;>
    simp only [hb, hd, if_true, if_false] <;>
    simp_all [peerQuiet]

theorem complete_sync_goQuiet (env : Env) (st : SyncSt) :
    goQuiet env st (complete_sync env st) := by
  unfold complete_sync
  exact goQuiet_restate (reset_goQuiet env st) _ rfl
    (fun _ => Or.inr (Or.inl rfl))

theorem clear_peer_download_noreq (st : SyncSt) (pid : Nat) :
    ∀ a ∈ clear_peer_download st pid, a.isRequestBlocks = false := by
  unfold clear_peer_download
  intro a ha
  split at ha
  · simp at ha
  · split at ha <;> (try split at ha) <;>
      simp_all [Action.isRequestBlocks]

theorem snapshot_data_request_goQuiet (env : Env) (st : SyncSt) (pid : Nat)
    (peer : PeerInfo) (hlook : lookupPeer st.peers pid = some peer) :
    goQuiet env st (snapshot_data_request env st pid peer.snapshot_hash) := by
  unfold snapshot_data_request
  split
  · rename_i hguard
    refine ⟨fun _ => ?_, ?_, ?_⟩
    · unfold request_snapshot_data_r
      cases env.snapshot_chunk <;> exact allowedNext_refl _
    · intro a ha
      rcases List.mem_append.mp ha with h | h
      · exact clear_peer_download_noreq st pid a h
      · unfold request_snapshot_data_r at h
        cases hc : env.snapshot_chunk <;> rw [hc] at h <;>
          simp_all [Action.isRequestBlocks]
    · intro q p h hq
      have hqp : q ≠ pid := by
        intro hqe
        subst hqe
        rw [h] at hlook
        injection hlook with hpe
        subst hpe
        simp [hq.2.2.2] at hguard
      unfold request_snapshot_data_r
      cases hc : env.snapshot_chunk
      · exact ⟨p, h, hq⟩
      · rw [lookupPeer_setPeer, if_neg hqp]
        exact ⟨p, h, hq⟩
  · exact goQuiet_refl env st

/-- Quiet lemma for the continue_sync machinery: with no block request
available from either downloader and warp sync disabled, it sends no block
request, moves the state only to Idle or SnapshotWaiting (no backpressure
aside), and leaves quiet peers quiet. -/
theorem sync_go_goQuiet (env : Env) (hn : env.request_blocks_new = none)
    (ho : env.request_blocks_old = none) :
    ∀ fuel call st, st.warp_sync = WarpSync.Disabled →
      goQuiet env st (sync_go env fuel call st) := by
  intro fuel
  induction fuel with
  | zero => intro call st _; exact goQuiet_refl env st
  | succ fuel ih =>
    intro call st hwarp
    cases call with
    | maybeStart =>
      simp only [sync_go]
      split
      · exact goQuiet_refl env st
      · rename_i hcond
        exfalso
        apply hcond
        simp [hwarp, WarpSync.is_enabled]
    | syncp peer_id force =>
      simp only [sync_go]
      split
      · exact goQuiet_refl env st
      split
      · exact goQuiet_refl env st
      rename_i peer hlook
      split
      · exact goQuiet_refl env st
      split
      · exact goQuiet_refl env st
      split
      · exact goQuiet_refl env st
      split
      · split
        all_goals try exact goQuiet_refl env st
        all_goals try exact ih GoCall.maybeStart st hwarp
        all_goals try
          (split
           all_goals try exact snapshot_data_request_goQuiet env st peer_id peer hlook
           split
           · exact goQuiet_restate (goQuiet_refl env st) _ rfl
               (fun _ => Or.inr (Or.inr rfl))
           · exact snapshot_data_request_goQuiet env st peer_id peer hlook)
        all_goals
          (split
           · exact goQuiet_restate (goQuiet_refl env st) _ rfl
               (fun hq => by simp_all)
           · simp only [hn, ho]
             split <;> (try split) <;> exact goQuiet_refl env st)
      · exact goQuiet_refl env st
    | cont =>
      simp only [sync_go]
      have hstep : ∀ (acc : SyncSt × List Action) (p : Nat × Nat × Nat),
          goQuiet env st acc ∧ acc.1.warp_sync = WarpSync.Disabled →
          goQuiet env st (if acc.1.active_peers.contains p.1 then
              ((sync_go env fuel (GoCall.syncp p.1 false) acc.1).1,
               acc.2 ++ (sync_go env fuel (GoCall.syncp p.1 false) acc.1).2)
            else acc) ∧
          (if acc.1.active_peers.contains p.1 then
              ((sync_go env fuel (GoCall.syncp p.1 false) acc.1).1,
               acc.2 ++ (sync_go env fuel (GoCall.syncp p.1 false) acc.1).2)
            else acc).1.warp_sync = WarpSync.Disabled := by
        intro acc p hacc
        obtain ⟨hq, hw⟩ := hacc
        split
        · constructor
          · exact goQuiet_trans hq rfl (ih (GoCall.syncp p.1 false) acc.1 hw) _ rfl
          · have hf := (sync_go_goFrame env fuel (GoCall.syncp p.1 false) acc.1).2.1
            rw [hf, hw]
        · exact ⟨hq, hw⟩
      have hfold := foldl_preserve
        (fun acc => goQuiet env st acc ∧ acc.1.warp_sync = WarpSync.Disabled) _
        (sortByVersion (env.shuffle3 (st.peers.filterMap (fun kp =>
          if kp.2.can_sync then some (kp.1, kp.2.difficulty.getD 0, kp.2.protocol_version)
          else none)))) (st, []) ⟨goQuiet_refl env st, hwarp⟩ hstep
      split
      · exact goQuiet_trans hfold.1 rfl (complete_sync_goQuiet env _) _ rfl
      · exact hfold.1

/-- Frame property at the level of handler phases (penalty- and
import-free trace, peer records inside peerFrame). -/
def handlerFrame (st : SyncSt) (out : SyncSt × List Action) : Prop :=
  (∀ a ∈ out.2, a.isPenalty = false ∧ a.isImport = false) ∧
  (∀ q p, lookupPeer st.peers q = some p →
    ∃ p', lookupPeer out.1.peers q = some p' ∧ peerFrame p p')

theorem handlerFrame_of_goFrame {st : SyncSt} {out : SyncSt × List Action}
    (h : goFrame st out) : handlerFrame st out := ⟨h.1, h.2.2.2⟩

theorem handlerFrame_refl (st : SyncSt) : handlerFrame st (st, []) :=
  handlerFrame_of_goFrame (goFrame_refl st)

theorem handlerFrame_trans {st : SyncSt} {out1 : SyncSt × List Action}
    {st2 : SyncSt} {out2 : SyncSt × List Action}
    (h1 : handlerFrame st out1) (heq : out1.1 = st2)
    (h2 : handlerFrame st2 out2) (acts : List Action)
    (hacts : acts = out1.2 ++ out2.2) : handlerFrame st (out2.1, acts) := by
  obtain ⟨b1, f1⟩ := h1
  obtain ⟨b2, f2⟩ := h2
  subst heq
  refine ⟨?_, ?_⟩
  · intro a ha
    rw [hacts] at ha
    rcases List.mem_append.mp ha with h | h
    · exact b1 a h
    · exact b2 a h
  · intro q p h
    obtain ⟨p1, hp1, hf1⟩ := f1 q p h
    obtain ⟨p2, hp2, hf2⟩ := f2 q p1 hp1
    exact ⟨p2, hp2, peerFrame_trans hf1 hf2⟩

theorem handlerFrame_restate {st : SyncSt} {out : SyncSt × List Action}
    (h : handlerFrame st out) (st2 : SyncSt) (hp : st2.peers = out.1.peers) :
    handlerFrame st (st2, out.2) := by
  obtain ⟨b, f⟩ := h
  refine ⟨b, ?_⟩
  intro q p hq
  rw [hp]
  exact f q p hq

theorem update_targets_handlerFrame (env : Env) (st : SyncSt) :
    handlerFrame st (update_targets env st) := by
  simp only [update_targets]
  split
  · split
    · refine ⟨?_, ?_⟩
      · intro a ha
        split at ha <;> simp_all [Action.isPenalty, Action.isImport] <;>
          (rcases ha with h | h <;> subst h <;> simp [Action.isPenalty, Action.isImport])
      · intro q p h
        split <;> exact ⟨p, h, peerFrame_refl p⟩
    · refine ⟨?_, ?_⟩
      · intro a ha
        simp_all [Action.isPenalty, Action.isImport]
      · intro q p h
        exact ⟨p, h, peerFrame_refl p⟩
  · refine ⟨?_, ?_⟩
    · intro a ha
      simp_all [Action.isPenalty, Action.isImport]
    · intro q p h
      exact ⟨p, h, peerFrame_refl p⟩

theorem reset_and_continue_handlerFrame (env : Env) (fuel : Nat)
    (st : SyncSt) : handlerFrame st (reset_and_continue env fuel st) := by
  have h1 : handlerFrame st (reset env { st with snapshot := st.snapshot.clear }) :=
    handlerFrame_of_goFrame (goFrame_prestate
      (reset_goFrame env { st with snapshot := st.snapshot.clear }) rfl rfl rfl)
  have h2 := handlerFrame_of_goFrame (sync_go_goFrame env fuel GoCall.cont
    (reset env { st with snapshot := st.snapshot.clear }).1)
  have h12 := handlerFrame_trans h1 rfl h2 _ rfl
  obtain ⟨b, f⟩ := h12
  simp only [reset_and_continue]
  refine ⟨?_, f⟩
  intro a ha
  rcases List.mem_append.mp ha with h | h
  · rcases List.mem_append.mp h with h | h
    · split at h <;> simp_all [Action.isPenalty, Action.isImport]
    · exact b a (List.mem_append.mpr (Or.inl h))
  · exact b a (List.mem_append.mpr (Or.inr h))

theorem restart_handlerFrame (env : Env) (fuel : Nat) (st : SyncSt) :
    handlerFrame st (restart env fuel st) := by
  unfold restart
  exact handlerFrame_trans (update_targets_handlerFrame env st) rfl
    (reset_and_continue_handlerFrame env fuel _) _ rfl

theorem collect_blocks_handlerFrame (env : Env) (fuel : Nat) (st : SyncSt)
    (bs : BlockSet) : handlerFrame st (collect_blocks env fuel st bs) := by
  have hc : (Action.collect bs).isPenalty = false ∧
      (Action.collect bs).isImport = false := by
    simp [Action.isPenalty, Action.isImport]
  cases bs with
  | NewBlocks =>
    simp only [collect_blocks]
    split
    · have h := restart_handlerFrame env fuel st
      obtain ⟨b, f⟩ := h
      refine ⟨?_, f⟩
      intro a ha
      rcases List.mem_cons.mp ha with h | h
      · subst h
        exact hc
      · exact b a h
    · refine ⟨?_, ?_⟩
      · intro a ha
        rcases List.mem_singleton.mp ha with h
        subst h
        exact hc
      · intro q p h
        exact ⟨p, h, peerFrame_refl p⟩
  | OldBlocks =>
    simp only [collect_blocks]
    split
    · exact handlerFrame_refl st
    split
    · have h := restart_handlerFrame env fuel st
      obtain ⟨b, f⟩ := h
      refine ⟨?_, f⟩
      intro a ha
      rcases List.mem_cons.mp ha with h | h
      · subst h
        exact hc
      · exact b a h
    split
    · refine ⟨?_, ?_⟩
      · intro a ha
        rcases List.mem_singleton.mp ha with h
        subst h
        exact hc
      · intro q p h
        exact ⟨p, h, peerFrame_refl p⟩
    · refine ⟨?_, ?_⟩
      · intro a ha
        rcases List.mem_singleton.mp ha with h
        subst h
        exact hc
      · intro q p h
        exact ⟨p, h, peerFrame_refl p⟩

theorem deactivate_peer_peers (st : SyncSt) (pid : Nat) :
    (deactivate_peer st pid).peers = st.peers := rfl

/-- Quiet property at handler-phase level: update_targets. -/
theorem update_targets_goQuiet (env : Env) (st : SyncSt) :
    goQuiet env st (update_targets env st) := by
  simp only [update_targets]
  split
  · split
    · refine ⟨fun _ => allowedNext_refl _, ?_, ?_⟩
      · intro a ha
        split at ha <;> simp_all [Action.isRequestBlocks] <;>
          (rcases ha with h | h <;> subst h <;> simp [Action.isRequestBlocks])
      · intro q p h hq
        split <;> exact ⟨p, h, hq⟩
    · refine ⟨fun _ => allowedNext_refl _, ?_, ?_⟩
      · intro a ha
        simp_all [Action.isRequestBlocks]
      · intro q p h hq
        exact ⟨p, h, hq⟩
  · refine ⟨fun _ => allowedNext_refl _, ?_, ?_⟩
    · intro a ha
      simp_all [Action.isRequestBlocks]
    · intro q p h hq
      exact ⟨p, h, hq⟩

theorem reset_warp (env : Env) (st : SyncSt) :
    (reset env st).1.warp_sync = st.warp_sync := rfl

theorem reset_state (env : Env) (st : SyncSt) :
    (reset env st).1.state = SyncState.Idle := rfl

theorem update_targets_warp (env : Env) (st : SyncSt) :
    (update_targets env st).1.warp_sync = st.warp_sync := by
  simp only [update_targets]
  split
  · split <;> rfl
  · rfl

theorem update_targets_state (env : Env) (st : SyncSt) :
    (update_targets env st).1.state = st.state := by
  simp only [update_targets]
  split
  · split <;> rfl
  · rfl

theorem reset_and_continue_goQuiet (env : Env)
    (hn : env.request_blocks_new = none) (ho : env.request_blocks_old = none)
    (fuel : Nat) (st : SyncSt) (hwarp : st.warp_sync = WarpSync.Disabled) :
    goQuiet env st (reset_and_continue env fuel st) := by
  simp only [reset_and_continue]
  have h1 : goQuiet env st (reset env { st with snapshot := st.snapshot.clear }) :=
    goQuiet_prestate (reset_goQuiet env { st with snapshot := st.snapshot.clear })
      rfl (fun _ => allowedNext_refl _)
  have h2 := sync_go_goQuiet env hn ho fuel GoCall.cont
    (reset env { st with snapshot := st.snapshot.clear }).1
    (by rw [reset_warp]; exact hwarp)
  have h12 := goQuiet_trans h1 rfl h2 _ rfl
  obtain ⟨s, b, f⟩ := h12
  refine ⟨s, ?_, f⟩
  intro a ha
  rcases List.mem_append.mp ha with h | h
  · rcases List.mem_append.mp h with h | h
    · split at h <;> simp_all [Action.isRequestBlocks]
    · exact b a (List.mem_append.mpr (Or.inl h))
  · exact b a (List.mem_append.mpr (Or.inr h))

theorem restart_goQuiet (env : Env) (hn : env.request_blocks_new = none)
    (ho : env.request_blocks_old = none) (fuel : Nat) (st : SyncSt)
    (hwarp : st.warp_sync = WarpSync.Disabled) :
    goQuiet env st (restart env fuel st) := by
  unfold restart
  exact goQuiet_trans (update_targets_goQuiet env st) rfl
    (reset_and_continue_goQuiet env hn ho fuel _
      (by rw [update_targets_warp]; exact hwarp)) _ rfl

theorem collect_blocks_goQuiet (env : Env) (hn : env.request_blocks_new = none)
    (ho : env.request_blocks_old = none) (fuel : Nat) (st : SyncSt)
    (bs : BlockSet) (hwarp : st.warp_sync = WarpSync.Disabled) :
    goQuiet env st (collect_blocks env fuel st bs) := by
  have hres := restart_goQuiet env hn ho fuel st hwarp
  have hcons : ∀ out : SyncSt × List Action, goQuiet env st out →
      goQuiet env st (out.1, Action.collect bs :: out.2) := by
    intro out hout
    obtain ⟨s, b, f⟩ := hout
    refine ⟨s, ?_, f⟩
    intro a ha
    rcases List.mem_cons.mp ha with h | h
    · subst h
      simp [Action.isRequestBlocks]
    · exact b a h
  have hsingle : goQuiet env st (st, [Action.collect bs]) := by
    refine ⟨fun _ => allowedNext_refl _, ?_, ?_⟩
    · intro a ha
      rcases List.mem_singleton.mp ha with h
      subst h
      simp [Action.isRequestBlocks]
    · intro q p h hq
      exact ⟨p, h, hq⟩
  cases bs with
  | NewBlocks =>
    simp only [collect_blocks]
    split
    · exact hcons _ hres
    · exact hsingle
  | OldBlocks =>
    simp only [collect_blocks]
    split
    · exact goQuiet_refl env st
    split
    · exact hcons _ hres
    split
    · exact goQuiet_restate hsingle _ rfl (fun _ => allowedNext_refl _)
    · exact hsingle

/-- C1: the spec demands that maintain_peers disconnect every handshaking
peer whose elapsed time since connection exceeds STATUS_TIMEOUT = 5
seconds, and declares that intent authoritative.  The code divides the
elapsed Duration by 1000000000 before comparing it against STATUS_TIMEOUT,
so a handshaking peer 6 seconds old is not disconnected; a disconnect
happens only once the raw elapsed time exceeds 5000000000 seconds.  This
theorem evaluates the embedded maintain_peers at both inputs (instants in
nanoseconds), exhibiting the divergence. -/
theorem c1_status_timeout_code_bug :
    (maintain_peers { env0 with now := 6000000000 } 3
        { st0 with handshaking_peers := [(7, 0)] }).2 = [] ∧
    (maintain_peers { env0 with now := 5000000001000000000 } 3
        { st0 with handshaking_peers := [(7, 0)] }).2 =
      [Action.disconnectPeer 7] := by
  constructor <;> rfl

/-- C4 counterexample: with one eligible peer the code returns one
recipient, because truncate is capped by the list length, while the
claimed formula min(MAX_PEERS_PROPAGATION, max(MIN_PEERS_PROPAGATION,
round(sqrt 1))) evaluates to 4. -/
theorem c4_propagation_width_counterexample :
    (select_random_peers (fun l => l) [0]).length ≠
      min MAX_PEERS_PROPAGATION (max MIN_PEERS_PROPAGATION (natRoundSqrt 1)) := by
  decide

/-- C4 (amended): for every list of N eligible peers and any
length-preserving shuffle, select_random_peers returns exactly
min(N, min(MAX_PEERS_PROPAGATION, max(MIN_PEERS_PROPAGATION,
round(sqrt N)))) recipients; the count of the original claim is
additionally capped by N itself. -/
theorem c4_propagation_width_amended (shuffle : List Nat → List Nat)
    (hlen : ∀ l, (shuffle l).length = l.length) (peers : List Nat) :
    (select_random_peers shuffle peers).length =
      min peers.length (min MAX_PEERS_PROPAGATION
        (max MIN_PEERS_PROPAGATION (natRoundSqrt peers.length))) := by
  simp only [select_random_peers]
  rw [List.length_take, hlen]
  simp only [MIN_PEERS_PROPAGATION, MAX_PEERS_PROPAGATION]
  omega

/-- Witness for C4: nine peers yield four recipients, matching the amended
bound min(9, min(128, max(4, round(sqrt 9)))) = 4. -/
theorem c4_propagation_width_amended_witness :
    (select_random_peers (fun l => l)
        [10, 11, 12, 13, 14, 15, 16, 17, 18]).length =
      min 9 (min MAX_PEERS_PROPAGATION
        (max MIN_PEERS_PROPAGATION (natRoundSqrt 9))) := by
  have h := c4_propagation_width_amended (fun l => l) (fun _ => rfl)
    [10, 11, 12, 13, 14, 15, 16, 17, 18]
  simpa using h

/-- C10: a Status packet from a peer id already present in the registry is
ignored: on_peer_status leaves the peer map, the active set and the sync
state unchanged and emits no action, in particular neither a disconnect
nor a disable; only the handshaking entry of the peer is removed. -/
theorem c10_duplicate_status_ignored (env : Env) (fuel : Nat) (st : SyncSt)
    (peer_id : Nat) (r : StatusPayload)
    (hreg : (lookupPeer st.peers peer_id).isSome = true) :
    (on_peer_status env fuel st peer_id r).1.peers = st.peers ∧
    (on_peer_status env fuel st peer_id r).1.state = st.state ∧
    (on_peer_status env fuel st peer_id r).1.active_peers = st.active_peers ∧
    (on_peer_status env fuel st peer_id r).2 = [] := by
  by_cases hexp : env.is_expired = true <;>
    simp [on_peer_status, hexp, hreg]

/-- Witness for C10 at a concrete registered peer. -/
theorem c10_duplicate_status_ignored_witness :
    (on_peer_status env0 3 { st0 with peers := [(1, peer0)] } 1
        { protocol_version := 63, network_id := 1, difficulty := 1,
          latest_hash := 2, genesis := 7, snapshot_hash := 0,
          snapshot_number := 0 }).1.peers =
      ({ st0 with peers := [(1, peer0)] } : SyncSt).peers ∧
    (on_peer_status env0 3 { st0 with peers := [(1, peer0)] } 1
        { protocol_version := 63, network_id := 1, difficulty := 1,
          latest_hash := 2, genesis := 7, snapshot_hash := 0,
          snapshot_number := 0 }).1.state =
      ({ st0 with peers := [(1, peer0)] } : SyncSt).state ∧
    (on_peer_status env0 3 { st0 with peers := [(1, peer0)] } 1
        { protocol_version := 63, network_id := 1, difficulty := 1,
          latest_hash := 2, genesis := 7, snapshot_hash := 0,
          snapshot_number := 0 }).1.active_peers =
      ({ st0 with peers := [(1, peer0)] } : SyncSt).active_peers ∧
    (on_peer_status env0 3 { st0 with peers := [(1, peer0)] } 1
        { protocol_version := 63, network_id := 1, difficulty := 1,
          latest_hash := 2, genesis := 7, snapshot_hash := 0,
          snapshot_number := 0 }).2 = [] :=
  c10_duplicate_status_ignored env0 3 { st0 with peers := [(1, peer0)] } 1
    { protocol_version := 63, network_id := 1, difficulty := 1,
      latest_hash := 2, genesis := 7, snapshot_hash := 0,
      snapshot_number := 0 } rfl

/-- C6: on_peer_transactions queues transactions to the chain client only
when the chain queue is empty, the state is Idle or NewBlocks, and the
sender can sync; within an accepted batch exactly the encoded transactions
whose size exceeds MAX_TRANSACTION_SIZE are skipped and all the others are
queued in one call. -/
theorem c6_transactions_policy (env : Env) (st : SyncSt) (peer_id : Nat)
    (txs : List (List Nat)) :
    ((∃ txs2 pid2, Action.queueTransactions txs2 pid2 ∈
        on_peer_transactions env st peer_id txs) →
      env.is_chain_queue_empty = true ∧
      (st.state = SyncState.Idle ∨ st.state = SyncState.NewBlocks) ∧
      (lookupPeer st.peers peer_id).elim false PeerInfo.can_sync = true) ∧
    (env.is_chain_queue_empty = true →
      (st.state = SyncState.Idle ∨ st.state = SyncState.NewBlocks) →
      (lookupPeer st.peers peer_id).elim false PeerInfo.can_sync = true →
      on_peer_transactions env st peer_id txs =
        [Action.queueTransactions
          (txs.filter (fun tx => decide (tx.length ≤ MAX_TRANSACTION_SIZE)))
          peer_id]) := by
  constructor
  · rintro ⟨txs2, pid2, hmem⟩
    simp only [on_peer_transactions] at hmem
    split at hmem
    · simp at hmem
    · split at hmem
      · simp at hmem
      · rename_i h1 h2
        simp at h1
        refine ⟨h1.1, ?_, ?_⟩
        · by_cases hidle : st.state = SyncState.Idle
          · exact Or.inl hidle
          · exact Or.inr (h1.2 hidle)
        · cases hc : (lookupPeer st.peers peer_id).elim false PeerInfo.can_sync
          · exact absurd (by simp [hc]) h2
          · rfl
  · intro he hs hc
    simp only [on_peer_transactions]
    rw [if_neg, if_neg]
    · refine congrArg (fun l2 => [Action.queueTransactions l2 peer_id]) ?_
      refine List.filter_congr ?_
      intro x _
      by_cases h : x.length ≤ MAX_TRANSACTION_SIZE
      · have h2 : ¬(MAX_TRANSACTION_SIZE < x.length) := Nat.not_lt.mpr h
        simp [h, h2]
      · have h2 : MAX_TRANSACTION_SIZE < x.length := Nat.lt_of_not_le h
        simp [h, h2]
    · simp [hc]
    · rcases hs with h | h <;> simp [he, h]

/-- Witness for C6: queue empty, Idle, confirmed sender; the 2-byte
transaction is queued, the oversized one is dropped. -/
theorem c6_transactions_policy_witness :
    on_peer_transactions env0 { st0 with peers := [(1, peer0)] } 1
        [[1, 2], List.replicate 307201 0] =
      [Action.queueTransactions
        ([[1, 2], List.replicate 307201 0].filter
          (fun tx => decide (tx.length ≤ MAX_TRANSACTION_SIZE))) 1] :=
  (c6_transactions_policy env0 { st0 with peers := [(1, peer0)] } 1
    [[1, 2], List.replicate 307201 0]).2 rfl (Or.inl rfl) rfl

/-- C8 counterexample: with the warp protocol negotiated (version 2) and
an active ancient backfill, send_status still emits a 7-element payload
(its two extra fields zeroed), contradicting the claim that the 7-element
form is used only when no ancient backfill is active. -/
theorem c8_status_tuple_counterexample :
    ({ st0 with old_blocks := true } : SyncSt).old_blocks = true ∧
    (send_status
        { env0 with
            warp_protocol_version := fun _ => 2,
            snapshot_service_manifest := some { raw := [3], block_number := 42 } }
        { st0 with old_blocks := true } 9).length = 7 := by
  constructor <;> rfl

/-- C8 (amended): send_status emits the 5-element payload exactly when the
warp sub-protocol is not negotiated and the 7-element payload whenever it
is; the two appended fields are the keccak of the snapshot-service
manifest and its block number only when no ancient backfill is active,
and the zero hash with block number zero while an ancient backfill runs. -/
theorem c8_status_tuple_amended (env : Env) (st : SyncSt) (peer : Nat) :
    (send_status env st peer).length =
      (if env.warp_protocol_version peer = 0 then 5 else 7) ∧
    (env.warp_protocol_version peer ≠ 0 → st.old_blocks = true →
      (send_status env st peer).drop 5 = [0, 0]) ∧
    (env.warp_protocol_version peer ≠ 0 → st.old_blocks = false →
      (send_status env st peer).drop 5 =
        [env.snapshot_service_manifest.elim 0 (fun m => env.keccak m.raw),
         env.snapshot_service_manifest.elim 0 (fun m => m.block_number)]) := by
  by_cases hw : env.warp_protocol_version peer = 0
  · refine ⟨?_, fun h _ => absurd hw h, fun h _ => absurd hw h⟩
    simp [send_status, hw]
  · refine ⟨?_, ?_, ?_⟩
    · simp [send_status, hw]
    · intro _ hob
      simp [send_status, hw, hob]
    · intro _ hob
      simp [send_status, hw, hob]

/-- Witness for C8 at a warp peer with active backfill. -/
theorem c8_status_tuple_amended_witness :
    (send_status { env0 with warp_protocol_version := fun _ => 2 }
        { st0 with old_blocks := true } 4).drop 5 = [0, 0] :=
  (c8_status_tuple_amended { env0 with warp_protocol_version := fun _ => 2 }
    { st0 with old_blocks := true } 4).2.1 (by simp) rfl

/-- The continue_sync machinery never changes a peer confirmation. -/
theorem confirmation_after_go (env : Env) (fuel : Nat) (call : GoCall)
    (st : SyncSt) (q : Nat) (c : ForkConfirmation)
    (h : (lookupPeer st.peers q).map PeerInfo.confirmation = some c) :
    (lookupPeer (sync_go env fuel call st).1.peers q).map PeerInfo.confirmation =
      some c := by
  cases hl : lookupPeer st.peers q with
  | none => rw [hl] at h; simp at h
  | some p =>
    rw [hl] at h
    obtain ⟨p2, hp2, hc, _, _⟩ := (sync_go_goFrame env fuel call st).2.2.2 q p hl
    rw [hp2]
    simp only [Option.map_some'] at h ⊢
    rw [hc]
    exact h

/-- C7: when a peer whose asking is ForkHeader answers the fork probe
(with a fork block configured): a response of exactly one header whose
keccak equals the configured fork hash marks the peer Confirmed, a
one-header response with a different hash disables the peer, and any
other item count marks the peer TooShort; in the Confirmed and TooShort
cases no peer is disabled or disconnected. -/
theorem c7_fork_confirmation (env : Env) (fuel : Nat) (st : SyncSt)
    (peer_id : Nat) (peer : PeerInfo) (fn fh : Nat) (r : List (List Nat))
    (hlook : lookupPeer st.peers peer_id = some peer)
    (hask : peer.asking = PeerAsking.ForkHeader)
    (hfork : st.fork_block = some (fn, fh)) :
    (∀ header, r = [header] → env.keccak header = fh →
      ((lookupPeer (on_peer_block_headers env fuel st peer_id r).1.peers
          peer_id).map PeerInfo.confirmation =
        some ForkConfirmation.Confirmed ∧
       ∀ a ∈ (on_peer_block_headers env fuel st peer_id r).2,
         a.isPenalty = false)) ∧
    (∀ header, r = [header] → env.keccak header ≠ fh →
      Action.disablePeer peer_id ∈
        (on_peer_block_headers env fuel st peer_id r).2) ∧
    (r.length ≠ 1 →
      ((lookupPeer (on_peer_block_headers env fuel st peer_id r).1.peers
          peer_id).map PeerInfo.confirmation =
        some ForkConfirmation.TooShort ∧
       ∀ a ∈ (on_peer_block_headers env fuel st peer_id r).2,
         a.isPenalty = false)) := by
  refine ⟨?_, ?_, ?_⟩
  · intro header hr hk
    subst hr
    simp only [on_peer_block_headers, hlook, hask, hfork, hk, sync_peer]
    simp only [beq_self_eq_true, if_true]
    constructor
    · apply confirmation_after_go
      simp [lookupPeer_setPeer, hlook]
    · intro a ha
      rcases List.mem_append.mp ha with h | h
      · split at h <;> simp_all [Action.isPenalty]
      · exact ((sync_go_goFrame env fuel (GoCall.syncp peer_id false) _).1 a h).1
  · intro header hr hk
    subst hr
    simp only [on_peer_block_headers, hlook, hask, hfork]
    simp only [beq_self_eq_true, if_true]
    have hkb : (env.keccak header == fh) = false := by
      simp [hk]
    simp [hkb]
  · intro hlen
    match r, hlen with
    | [], _ =>
      simp only [on_peer_block_headers, hlook, hask, hfork, sync_peer]
      simp only [beq_self_eq_true, if_true]
      constructor
      · apply confirmation_after_go
        simp [lookupPeer_setPeer, hlook]
      · intro a ha
        exact ((sync_go_goFrame env fuel (GoCall.syncp peer_id false) _).1 a ha).1
    | h1 :: h2 :: t, _ =>
      simp only [on_peer_block_headers, hlook, hask, hfork, sync_peer]
      simp only [beq_self_eq_true, if_true]
      constructor
      · apply confirmation_after_go
        simp [lookupPeer_setPeer, hlook]
      · intro a ha
        exact ((sync_go_goFrame env fuel (GoCall.syncp peer_id false) _).1 a ha).1

/-- Witness for C7 at a concrete fork probe: the matching header confirms
the peer (keccak of the one-byte header 32 is 250 in the toy hash). -/
theorem c7_fork_confirmation_witness :
    (lookupPeer (on_peer_block_headers env0 3
        { st0 with
          fork_block := some (10, 250),
          peers := [(4, { peer0 with
            asking := PeerAsking.ForkHeader,
            confirmation := ForkConfirmation.Unconfirmed })],
          active_peers := [4] } 4 [[32]]).1.peers 4).map PeerInfo.confirmation =
      some ForkConfirmation.Confirmed :=
  ((c7_fork_confirmation env0 3
    { st0 with
      fork_block := some (10, 250),
      peers := [(4, { peer0 with
        asking := PeerAsking.ForkHeader,
        confirmation := ForkConfirmation.Unconfirmed })],
      active_peers := [4] } 4
    { peer0 with
      asking := PeerAsking.ForkHeader,
      confirmation := ForkConfirmation.Unconfirmed } 10 250 [[32]]
    rfl rfl rfl).1 [32] rfl rfl).1

/-- A peer advertising snapshot hash 77 at height 40000, for the C3
scenario states. -/
def peerSnap77 : PeerInfo := { peer0 with
  snapshot_hash := some 77, snapshot_number := some 40000 }

/-- The C3 scenario state: WaitingPeers, warp enabled, three allowed idle
peers advertising the same manifest hash above every threshold of the
claim. -/
def stC3 : SyncSt := { st0 with
  state := SyncState.WaitingPeers,
  warp_sync := WarpSync.Enabled,
  peers := [(1, peerSnap77), (2, peerSnap77), (3, peerSnap77)],
  active_peers := [1, 2, 3] }

/-- C3 counterexample: every condition of the claim holds in stC3 with
highest_block = 80001 — three allowed peers advertise manifest hash 77 at
snapshot_number 40000 > best(0) + 30000, above the absent fork block and
the expected warp block 0 — yet maybe_start_snapshot_sync leaves the state
at WaitingPeers, because the unclaimed filter condition
highest - sn <= SNAPSHOT_RESTORE_THRESHOLD fails (80001 - 40000 > 30000). -/
theorem c3_snapshot_quorum_counterexample :
    (maybe_start_snapshot_sync
        { env0 with snapshot_supported_versions := some (1, 2) } 3
        { stC3 with highest_block := some 80001 }).1.state =
      SyncState.WaitingPeers ∧
    (maybe_start_snapshot_sync
        { env0 with snapshot_supported_versions := some (1, 2) } 3
        { stC3 with highest_block := some 80001 }).2 = [] := by
  constructor <;> rfl

/-- Evaluating the hash-grouping fold of maybe_start_snapshot_sync over a
candidate suffix that agrees on one hash, starting from an accumulator
holding that single group. -/
theorem c3_group_fold_aux (h : Nat) :
    ∀ (l : List (Nat × Nat)) (ids : List Nat) (n : Nat),
      (∀ x ∈ l, x.2 = h) → n = ids.length →
      l.foldl (fun (acc : List (Nat × List Nat) × Nat × Option Nat) ph =>
          if ((List.lookup ph.2 acc.1).getD [] ++ [ph.1]).length > acc.2.1 then
            (assocSet acc.1 ph.2 ((List.lookup ph.2 acc.1).getD [] ++ [ph.1]),
             ((List.lookup ph.2 acc.1).getD [] ++ [ph.1]).length, some ph.2)
          else
            (assocSet acc.1 ph.2 ((List.lookup ph.2 acc.1).getD [] ++ [ph.1]),
             acc.2.1, acc.2.2)) ([(h, ids)], n, some h) =
        ([(h, ids ++ l.map Prod.fst)], n + l.length, some h) := by
  intro l
  induction l with
  | nil =>
    intro ids n _ _
    simp
  | cons x xs ih =>
    intro ids n hall hn
    have hx2 : x.2 = h := hall x (List.mem_cons_self x xs)
    have hassoc : assocSet [(h, ids)] h (ids ++ [x.1]) =
        [(h, ids ++ [x.1])] := by
      simp [assocSet, List.lookup]
    have hgt : (ids ++ [x.1]).length > ids.length := by simp
    rw [List.foldl_cons]
    simp only [hx2, hn, List.lookup, beq_self_eq_true, Option.getD_some,
      hassoc, hgt, if_true]
    rw [ih (ids ++ [x.1]) ((ids ++ [x.1]).length)
      (fun y hy => hall y (List.mem_cons_of_mem x hy)) rfl]
    simp only [Prod.mk.injEq, List.map_cons]
    refine ⟨?_, ?_, ?_⟩
    · simp [List.append_assoc]
    · simp only [List.length_append, List.length_cons, List.length_nil]
      omega
    · trivial

/-- The hash-grouping fold over a nonempty candidate list that agrees on
one hash yields the single full group, its size and that hash. -/
theorem c3_group_fold (h : Nat) (l : List (Nat × Nat))
    (hall : ∀ x ∈ l, x.2 = h) (hne : l ≠ []) :
    l.foldl (fun (acc : List (Nat × List Nat) × Nat × Option Nat) ph =>
        if ((List.lookup ph.2 acc.1).getD [] ++ [ph.1]).length > acc.2.1 then
          (assocSet acc.1 ph.2 ((List.lookup ph.2 acc.1).getD [] ++ [ph.1]),
           ((List.lookup ph.2 acc.1).getD [] ++ [ph.1]).length, some ph.2)
        else
          (assocSet acc.1 ph.2 ((List.lookup ph.2 acc.1).getD [] ++ [ph.1]),
           acc.2.1, acc.2.2)) ([], 0, none) =
      ([(h, l.map Prod.fst)], l.length, some h) := by
  cases l with
  | nil => exact absurd rfl hne
  | cons x xs =>
    have hx2 : x.2 = h := hall x (List.mem_cons_self x xs)
    have hassoc : assocSet [] h [x.1] = [(h, [x.1])] := by
      simp [assocSet, List.lookup]
    have hgt0 : ([x.1] : List Nat).length > 0 := by simp
    rw [List.foldl_cons]
    simp only [hx2, List.lookup, Option.getD_none, List.nil_append,
      hassoc, hgt0, if_true]
    rw [c3_group_fold_aux h xs [x.1] (([x.1] : List Nat).length)
      (fun y hy => hall y (List.mem_cons_of_mem x hy)) rfl]
    simp only [Prod.mk.injEq, List.map_cons, List.singleton_append]
    refine ⟨?_, ?_, ?_⟩
    · trivial
    · simp only [List.length_cons, List.length_nil]
      omega
    · trivial

/-- The request fold of start_snapshot_sync over distinct idle peers sends
one manifest request per peer, in order. -/
theorem c3_start_fold (env : Env) :
    ∀ (ids : List Nat) (st : SyncSt) (acts : List Action),
      (∀ i ∈ ids, ∃ q, lookupPeer st.peers i = some q ∧
        q.asking = PeerAsking.Nothing) →
      ids.Nodup →
      ∃ stf, ids.foldl (fun (acc : SyncSt × List Action) p =>
          if (lookupPeer acc.1.peers p).elim false
              (fun q => q.asking == PeerAsking.Nothing) then
            ((request_snapshot_manifest_r env acc.1 p).1,
             acc.2 ++ (request_snapshot_manifest_r env acc.1 p).2)
          else acc) (st, acts) =
        (stf, acts ++ ids.map Action.requestManifest) := by
  intro ids
  induction ids with
  | nil =>
    intro st acts _ _
    exact ⟨st, by simp⟩
  | cons i rest ih =>
    intro st acts hip hnd
    obtain ⟨q, hq, hqa⟩ := hip i (List.mem_cons_self i rest)
    have hni : i ∉ rest := (List.nodup_cons.mp hnd).1
    have hrest : ∀ j ∈ rest, ∃ q2,
        lookupPeer (request_snapshot_manifest_r env st i).1.peers j =
          some q2 ∧ q2.asking = PeerAsking.Nothing := by
      intro j hj
      obtain ⟨q2, hq2, hq2a⟩ := hip j (List.mem_cons_of_mem i hj)
      refine ⟨q2, ?_, hq2a⟩
      simp only [request_snapshot_manifest_r]
      rw [lookupPeer_setPeer, if_neg, hq2]
      intro hji
      exact hni (hji ▸ hj)
    obtain ⟨stf, heq⟩ := ih (request_snapshot_manifest_r env st i).1
      (acts ++ [Action.requestManifest i]) hrest (List.nodup_cons.mp hnd).2
    refine ⟨stf, ?_⟩
    have hr2 : (request_snapshot_manifest_r env st i).2 =
        [Action.requestManifest i] := rfl
    have helim : (some q).elim false
        (fun q2 => q2.asking == PeerAsking.Nothing) =
        (q.asking == PeerAsking.Nothing) := rfl
    rw [List.foldl_cons]
    simp only [hq, helim, hqa, beq_self_eq_true, eq_self_iff_true,
      if_true, hr2]
    rw [heq]
    simp

/-- C3 (amended): in WaitingPeers with warp sync enabled (Enabled or
OnlyAndAfter) and supported by the snapshot service, no manifest
downloaded yet, when the snapshot candidates — allowed peers whose
advertised snapshot number exceeds our best block by more than
SNAPSHOT_RESTORE_THRESHOLD, lies above the configured fork block and the
expected warp block, is not contradicted by a known highest block, and
whose advertised hash is not blacklisted — all advertise the same manifest
hash h, number at least SNAPSHOT_MIN_PEERS = 3, carry distinct ids and
have no request outstanding, then maybe_start_snapshot_sync moves the
state to SnapshotManifest and requests the snapshot manifest from exactly
those peers.  Relative to the original claim this adds the warp,
service-support, blacklist, no-manifest, idle-peer and highest-block
conditions, which the code also requires. -/
theorem c3_snapshot_quorum_amended (env : Env) (fuel : Nat) (st : SyncSt)
    (h : Nat)
    (hstate : st.state = SyncState.WaitingPeers)
    (hwarp : st.warp_sync.is_enabled = true)
    (hsup : env.snapshot_supported_versions.isSome = true)
    (hman : st.snapshot.have_manifest = false)
    (hall : ∀ x ∈ snapshot_candidates env st, x.2 = h)
    (hlen : (snapshot_candidates env st).length ≥ SNAPSHOT_MIN_PEERS)
    (hidle : ∀ x ∈ snapshot_candidates env st, ∃ q,
      lookupPeer st.peers x.1 = some q ∧ q.asking = PeerAsking.Nothing)
    (hnodup : ((snapshot_candidates env st).map Prod.fst).Nodup) :
    (maybe_start_snapshot_sync env (fuel + 1) st).1.state =
      SyncState.SnapshotManifest ∧
    (maybe_start_snapshot_sync env (fuel + 1) st).2 =
      ((snapshot_candidates env st).map Prod.fst).map
        Action.requestManifest := by
  obtain ⟨v, hv⟩ := Option.isSome_iff_exists.mp hsup
  have hne : snapshot_candidates env st ≠ [] := by
    intro hnil
    rw [hnil] at hlen
    simp [SNAPSHOT_MIN_PEERS] at hlen
  have hmain : maybe_start_snapshot_sync env (fuel + 1) st =
      start_snapshot_sync env st
        ((snapshot_candidates env st).map Prod.fst) := by
    simp only [maybe_start_snapshot_sync, sync_go]
    split
    · rename_i hc
      exfalso
      simp [hwarp, hv] at hc
    split
    · rename_i hc
      exfalso
      simp [hstate] at hc
    rw [c3_group_fold h (snapshot_candidates env st) hall hne]
    simp [List.lookup, hlen]
  have hip : ∀ i ∈ (snapshot_candidates env st).map Prod.fst, ∃ q,
      lookupPeer st.peers i = some q ∧ q.asking = PeerAsking.Nothing := by
    intro i hi
    obtain ⟨x, hx, hxi⟩ := List.mem_map.mp hi
    obtain ⟨q, hq, hqa⟩ := hidle x hx
    exact ⟨q, hxi ▸ hq, hqa⟩
  obtain ⟨stf, hfold⟩ := c3_start_fold env
    ((snapshot_candidates env st).map Prod.fst) st [] hip hnodup
  rw [hmain]
  constructor
  · simp only [start_snapshot_sync, hman, Bool.not_false,
      eq_self_iff_true, if_true]
  · simp only [start_snapshot_sync, hman, Bool.not_false,
      eq_self_iff_true, if_true]
    rw [hfold]
    simp

/-- The C3 scenario state for the witness: WaitingPeers, warp restricted
to OnlyAndAfter 100, a known in-range highest block, one peer without any
snapshot advertisement and three allowed idle peers advertising the same
manifest hash above every threshold. -/
def stC3W : SyncSt := { st0 with
  state := SyncState.WaitingPeers,
  warp_sync := WarpSync.OnlyAndAfter 100,
  highest_block := some 50000,
  peers := [(9, peer0), (1, peerSnap77), (2, peerSnap77), (3, peerSnap77)],
  active_peers := [9, 1, 2, 3] }

/-- Witness for C3 at a concrete state with a fourth non-advertising peer,
a known highest block within the restore threshold and an OnlyAndAfter
warp restriction. -/
theorem c3_snapshot_quorum_amended_witness :
    (maybe_start_snapshot_sync
        { env0 with snapshot_supported_versions := some (1, 2) } 4 stC3W).1.state =
      SyncState.SnapshotManifest ∧
    (maybe_start_snapshot_sync
        { env0 with snapshot_supported_versions := some (1, 2) } 4 stC3W).2 =
      [Action.requestManifest 1, Action.requestManifest 2,
       Action.requestManifest 3] := by
  have hcand : snapshot_candidates
      { env0 with snapshot_supported_versions := some (1, 2) } stC3W =
      [(1, 77), (2, 77), (3, 77)] := rfl
  have hidle : ∀ x ∈ snapshot_candidates
      { env0 with snapshot_supported_versions := some (1, 2) } stC3W, ∃ q,
      lookupPeer stC3W.peers x.1 = some q ∧
      q.asking = PeerAsking.Nothing := by
    intro x hx
    rw [hcand] at hx
    simp only [List.mem_cons, List.not_mem_nil, or_false] at hx
    rcases hx with hx | hx | hx <;> subst hx <;>
      exact ⟨peerSnap77, rfl, rfl⟩
  have hm := c3_snapshot_quorum_amended
    { env0 with snapshot_supported_versions := some (1, 2) } 3 stC3W 77
    rfl rfl rfl rfl (by simp only [hcand]; decide)
    (by simp only [hcand]; decide) hidle (by simp only [hcand]; decide)
  refine ⟨hm.1, ?_⟩
  rw [hm.2, hcand]
  rfl

theorem reset_asking_expires (p : PeerInfo)
    (ha : p.asking ≠ PeerAsking.Nothing) (hw : p.is_allowed = true) :
    p.reset_asking.expired = true ∧ p.reset_asking.asking_hash = none ∧
    p.reset_asking.asking_blocks = [] := by
  simp only [PeerInfo.reset_asking]
  split
  · simp
  · rename_i hcond
    exfalso
    apply hcond
    simp only [Bool.and_eq_true, bne_iff_ne, ne_eq]
    constructor
    · exact ha
    · simp only [PeerInfo.is_allowed] at hw ⊢
      exact hw

/-- Pushing the sticky-expiry triple through one handler phase. -/
theorem P5_through_handlerFrame {st : SyncSt} {out : SyncSt × List Action}
    (hf : handlerFrame st out) (q : Nat) (p : PeerInfo)
    (h : lookupPeer st.peers q = some p)
    (hp : p.expired = true ∧ p.asking_hash = none ∧ p.asking_blocks = []) :
    ∃ p2, lookupPeer out.1.peers q = some p2 ∧ p2.expired = true ∧
      p2.asking_hash = none ∧ p2.asking_blocks = [] := by
  obtain ⟨p2, hp2, hfr⟩ := hf.2 q p h
  exact ⟨p2, hp2, hfr.2.2 hp⟩

/-- C5: when a BlockHeaders response from an allowed peer with an
outstanding header request makes the downloader return Reset, every other
registered peer whose block_set equals the resetting request block set and
which has an outstanding request while allowed ends the call with
asking_blocks and asking_hash cleared and its expired flag set; and a
BlockHeaders reply from a peer whose expired flag is set (and which is not
in the fork-probe state) is dropped: nothing is forwarded to the
downloader and no peer is disabled or disconnected. -/
theorem c5_reset_marks_expired (env : Env) (fuel : Nat) (st : SyncSt)
    (peer_id : Nat) (p0 : PeerInfo) (r : List (List Nat))
    (hlook : lookupPeer st.peers peer_id = some p0) :
    (∀ eh bs,
      p0.asking = PeerAsking.BlockHeaders →
      p0.asking_hash = some eh →
      p0.is_allowed = true →
      p0.block_set.getD BlockSet.NewBlocks = bs →
      env.import_headers_result = HeadersImport.reset →
      ((st.state == SyncState.Idle || st.state == SyncState.WaitingPeers) &&
        !st.old_blocks) = false →
      (st.state == SyncState.Waiting) = false →
      (bs == BlockSet.OldBlocks && !st.old_blocks) = false →
      ∀ q pq, q ≠ peer_id → lookupPeer st.peers q = some pq →
        pq.block_set = some bs → pq.asking ≠ PeerAsking.Nothing →
        pq.is_allowed = true →
        ∃ pq2, lookupPeer
            (on_peer_block_headers env fuel st peer_id r).1.peers q =
              some pq2 ∧
          pq2.expired = true ∧ pq2.asking_hash = none ∧
          pq2.asking_blocks = []) ∧
    (p0.asking ≠ PeerAsking.ForkHeader → p0.expired = true →
      ∀ a ∈ (on_peer_block_headers env fuel st peer_id r).2,
        a.isImport = false ∧ a.isPenalty = false) := by
  constructor
  · intro eh bs hask hhash hallow hbs himp hc1 hc2 hc3 q pq hqne hlq hqbs hqask hqallow
    have haskb : (p0.asking == PeerAsking.ForkHeader) = false := by
      simp [hask]
    simp only [on_peer_block_headers, hlook, haskb, Bool.false_eq_true,
      if_false, on_peer_block_headers_main, reset_peer_asking, sync_peer,
      continue_sync]
    simp [hlook, hask, hhash, hallow, hbs, himp, hc1, hc2, hc3]
    have h1 : lookupPeer
        (List.map (fun (kp : Nat × PeerInfo) =>
            if kp.2.block_set = some bs then (kp.1, kp.2.reset_asking) else kp)
          (setPeer st.peers peer_id (fun p =>
            { p with expired := false, block_set := none,
                     asking := PeerAsking.Nothing }))) q =
        some pq.reset_asking := by
      have hmap : (fun (kp : Nat × PeerInfo) =>
          if kp.2.block_set = some bs then (kp.1, kp.2.reset_asking) else kp) =
          (fun (kp : Nat × PeerInfo) => (kp.1,
            if kp.2.block_set = some bs then kp.2.reset_asking else kp.2)) := by
        funext kp
        by_cases hb : kp.2.block_set = some bs <;> simp [hb]
      rw [hmap, lookupPeer_map_vals]
      rw [lookupPeer_setPeer, if_neg hqne, hlq]
      simp [hqbs]
    obtain ⟨p3, hp3, hP3⟩ := P5_through_handlerFrame
      (collect_blocks_handlerFrame env fuel
        { st with
          peers := List.map
            (fun (kp : Nat × PeerInfo) =>
              if kp.2.block_set = some bs then (kp.1, kp.2.reset_asking) else kp)
            (setPeer st.peers peer_id (fun p =>
              { p with
                expired := false
                block_set := none
                asking := PeerAsking.Nothing })) } bs) q pq.reset_asking
      h1 (reset_asking_expires pq hqask hqallow)
    obtain ⟨p4, hp4, hP4⟩ := P5_through_handlerFrame
      (handlerFrame_of_goFrame (sync_go_goFrame env fuel
        (GoCall.syncp peer_id false) _)) q p3 hp3 hP3
    obtain ⟨p5, hp5, hP5⟩ := P5_through_handlerFrame
      (handlerFrame_of_goFrame (sync_go_goFrame env fuel GoCall.cont _)) q
      p4 hp4 hP4
    exact ⟨p5, hp5, hP5⟩
  · intro hask2 hexp a ha
    have haskb : (p0.asking == PeerAsking.ForkHeader) = false := by
      simp [hask2]
    have hallow : p0.is_allowed = false := by
      simp [PeerInfo.is_allowed, hexp]
    simp only [on_peer_block_headers, hlook, haskb, Bool.false_eq_true,
      if_false, on_peer_block_headers_main, reset_peer_asking, continue_sync] at ha
    simp [hlook, hallow] at ha
    rcases ha with h | h
    · exact ⟨(clear_peer_download_benign st peer_id a h).2,
        (clear_peer_download_benign st peer_id a h).1⟩
    · have hgf := (sync_go_goFrame env fuel GoCall.cont _).1 a h
      exact ⟨hgf.2, hgf.1⟩

/-- A peer with an outstanding header request, used in the C5 witness. -/
def p0C5 : PeerInfo := { peer0 with
  asking := PeerAsking.BlockHeaders
  asking_hash := some 50
  block_set := some BlockSet.NewBlocks }

/-- A second peer busy on the same block set, used in the C5 witness. -/
def pqC5 : PeerInfo := { peer0 with
  asking := PeerAsking.BlockBodies
  asking_blocks := [9, 10]
  asking_hash := some 11
  block_set := some BlockSet.NewBlocks }

/-- A sync state with two busy peers, used in the C5 witness. -/
def stC5 : SyncSt := { st0 with
  state := SyncState.Blocks
  peers := [(1, p0C5), (2, pqC5)]
  active_peers := [1, 2] }

/-- An environment whose header import returns Reset, for the C5 witness. -/
def envC5 : Env := { env0 with
  import_headers_result := HeadersImport.reset }

/-- C5 witness: in a concrete two-peer state, a BlockHeaders reply from
peer 1 that makes the downloader reset leaves peer 2 expired with its
asking_hash and asking_blocks cleared. -/
theorem c5_reset_marks_expired_witness :
    ∃ pq2, lookupPeer
        (on_peer_block_headers envC5 9 stC5 1 [[3]]).1.peers 2 = some pq2 ∧
      pq2.expired = true ∧ pq2.asking_hash = none ∧ pq2.asking_blocks = [] :=
  (c5_reset_marks_expired envC5 9 stC5 1 p0C5 [[3]] (by rfl)).1 50
    BlockSet.NewBlocks (by rfl) (by rfl) (by rfl) (by rfl) (by rfl)
    (by rfl) (by rfl) (by rfl) 2 pqC5 (by decide) (by rfl) (by rfl)
    (by decide) (by rfl)

/-- The recursive supervisor preserves the warp flag. -/
theorem sync_go_warp (env : Env) (fuel : Nat) (call : GoCall) (st : SyncSt) :
    (sync_go env fuel call st).1.warp_sync = st.warp_sync :=
  (sync_go_goFrame env fuel call st).2.1

/-- reset_and_continue preserves the warp flag. -/
theorem reset_and_continue_warp (env : Env) (fuel : Nat) (st : SyncSt) :
    (reset_and_continue env fuel st).1.warp_sync = st.warp_sync := by
  simp only [reset_and_continue, continue_sync]
  rw [sync_go_warp, reset_warp]

/-- restart preserves the warp flag. -/
theorem restart_warp (env : Env) (fuel : Nat) (st : SyncSt) :
    (restart env fuel st).1.warp_sync = st.warp_sync := by
  simp only [restart]
  rw [reset_and_continue_warp, update_targets_warp]

/-- collect_blocks preserves the warp flag. -/
theorem collect_blocks_warp (env : Env) (fuel : Nat) (st : SyncSt)
    (bs : BlockSet) :
    (collect_blocks env fuel st bs).1.warp_sync = st.warp_sync := by
  cases bs with
  | NewBlocks =>
    simp only [collect_blocks]
    split
    · exact restart_warp env fuel st
    · rfl
  | OldBlocks =>
    simp only [collect_blocks]
    split
    · rfl
    split
    · exact restart_warp env fuel st
    split
    · rfl
    · rfl

/-- A quiet peer entry survives one supervisor call in the quiet setting. -/
theorem quiet_entry_after_go (env : Env)
    (hn : env.request_blocks_new = none) (ho : env.request_blocks_old = none)
    (fuel : Nat) (call : GoCall) (st1 : SyncSt)
    (hw : st1.warp_sync = WarpSync.Disabled) (q : Nat)
    (h : ∃ p, lookupPeer st1.peers q = some p ∧ peerQuiet p) :
    ∃ p2, lookupPeer (sync_go env fuel call st1).1.peers q = some p2 ∧
      peerQuiet p2 := by
  obtain ⟨p, hp, hqp⟩ := h
  exact (sync_go_goQuiet env hn ho fuel call st1 hw).2.2 q p hp hqp

/-- A quiet peer entry survives one collect_blocks call in the quiet
setting. -/
theorem quiet_entry_after_collect (env : Env)
    (hn : env.request_blocks_new = none) (ho : env.request_blocks_old = none)
    (fuel : Nat) (st1 : SyncSt) (bs : BlockSet)
    (hw : st1.warp_sync = WarpSync.Disabled) (q : Nat)
    (h : ∃ p, lookupPeer st1.peers q = some p ∧ peerQuiet p) :
    ∃ p2, lookupPeer (collect_blocks env fuel st1 bs).1.peers q = some p2 ∧
      peerQuiet p2 := by
  obtain ⟨p, hp, hqp⟩ := h
  exact (collect_blocks_goQuiet env hn ho fuel st1 bs hw).2.2 q p hp hqp

/-- An expired but fork-confirmed peer that was asked for a snapshot
manifest, registered in a state waiting for that manifest. -/
def pEC9 : PeerInfo := { peer0 with
  expired := true
  asking := PeerAsking.SnapshotManifest }

/-- A sync state holding the expired snapshot-asking peer pEC9. -/
def stC9 : SyncSt := { st0 with
  state := SyncState.SnapshotManifest
  peers := [(3, pEC9)]
  active_peers := [3] }

/-- C9 counterexample: the claim says every SnapshotManifest response from
a registered peer resets the asking state of the sender, clearing its
expired flag even when the response is dropped.  The snapshot handlers
check can_sync before reset_peer_asking, so a response from a registered
peer whose expired flag is set (can_sync = false) returns with the state
untouched: the expired flag survives the SnapshotManifest response. -/
theorem c9_reset_on_any_response_counterexample :
    lookupPeer stC9.peers 3 = some pEC9 ∧ pEC9.expired = true ∧
    pEC9.asking = PeerAsking.SnapshotManifest ∧
    on_snapshot_manifest env0 9 stC9 3 [1] = (stC9, []) := by
  refine ⟨rfl, rfl, rfl, ?_⟩
  rfl

/-- C9 amended: after a BlockHeaders (outside the fork-probe branch),
BlockBodies or Receipts response from a registered peer, the sender record
ends the call with asking Nothing, expired false and block_set cleared,
even when the response is dropped for an asking mismatch (stated in the
quiet setting: no block-request oracle and warp sync disabled, so the
trailing continue_sync cannot hand the peer a new request); the
SnapshotManifest and SnapshotData handlers instead drop the response of a
peer that cannot sync, Confirmed-and-not-expired, before any reset, leaving
state and actions untouched. -/
theorem c9_reset_on_any_response_amended (env : Env) (fuel : Nat)
    (st : SyncSt) (peer_id : Nat) (p0 : PeerInfo)
    (hlook : lookupPeer st.peers peer_id = some p0)
    (hn : env.request_blocks_new = none) (ho : env.request_blocks_old = none)
    (hwarp : st.warp_sync = WarpSync.Disabled)
    (hsh : p0.snapshot_hash = none) :
    (p0.asking ≠ PeerAsking.ForkHeader →
      ∀ r, ∃ p2, lookupPeer
          (on_peer_block_headers env fuel st peer_id r).1.peers peer_id =
            some p2 ∧
        p2.expired = false ∧ p2.asking = PeerAsking.Nothing ∧
        p2.block_set = none) ∧
    (∀ n, ∃ p2, lookupPeer
        (on_peer_block_bodies env fuel st peer_id n).1.peers peer_id =
          some p2 ∧
      p2.expired = false ∧ p2.asking = PeerAsking.Nothing ∧
      p2.block_set = none) ∧
    (∀ n, ∃ p2, lookupPeer
        (on_peer_block_receipts env fuel st peer_id n).1.peers peer_id =
          some p2 ∧
      p2.expired = false ∧ p2.asking = PeerAsking.Nothing ∧
      p2.block_set = none) ∧
    (p0.can_sync = false →
      (∀ m, on_snapshot_manifest env fuel st peer_id m = (st, [])) ∧
      on_snapshot_data env fuel st peer_id = (st, [])) := by
  have hst1 : lookupPeer (setPeer st.peers peer_id (fun p =>
      { p with expired := false, block_set := none,
               asking := PeerAsking.Nothing })) peer_id =
      some { p0 with expired := false, block_set := none,
                     asking := PeerAsking.Nothing } := by
    rw [lookupPeer_setPeer, if_pos rfl, hlook]
    rfl
  have hq1 : peerQuiet { p0 with expired := false, block_set := none,
                                 asking := PeerAsking.Nothing } :=
    ⟨rfl, rfl, rfl, hsh⟩
  have hconv : ∀ out : SyncSt × List Action,
      (∃ p2, lookupPeer out.1.peers peer_id = some p2 ∧ peerQuiet p2) →
      ∃ p2, lookupPeer out.1.peers peer_id = some p2 ∧
        p2.expired = false ∧ p2.asking = PeerAsking.Nothing ∧
        p2.block_set = none := by
    intro out h
    obtain ⟨p2, h2, q2⟩ := h
    exact ⟨p2, h2, q2.2.1, q2.1, q2.2.2.1⟩
  refine ⟨?_, ?_, ?_, ?_⟩
  · intro hfk r
    apply hconv
    have haskb : (p0.asking == PeerAsking.ForkHeader) = false := by
      simp [hfk]
    have hst2 : lookupPeer ((setPeer st.peers peer_id (fun p =>
        { p with expired := false, block_set := none,
                 asking := PeerAsking.Nothing })).map (fun kp =>
          if kp.2.block_set ==
              some ((p0.block_set).getD BlockSet.NewBlocks)
          then (kp.1, kp.2.reset_asking) else kp)) peer_id =
        some { p0 with expired := false, block_set := none,
                       asking := PeerAsking.Nothing } := by
      have hmap : (fun (kp : Nat × PeerInfo) =>
          if kp.2.block_set ==
              some ((p0.block_set).getD BlockSet.NewBlocks)
          then (kp.1, kp.2.reset_asking) else kp) =
          (fun (kp : Nat × PeerInfo) => (kp.1,
            if kp.2.block_set ==
                some ((p0.block_set).getD BlockSet.NewBlocks)
            then kp.2.reset_asking else kp.2)) := by
        funext kp
        cases hbb : kp.2.block_set ==
          some ((p0.block_set).getD BlockSet.NewBlocks) <;> simp [hbb]
      rw [hmap, lookupPeer_map_vals, hst1]
      rfl
    simp only [on_peer_block_headers, hlook, haskb, Bool.false_eq_true,
      if_false, on_peer_block_headers_main, reset_peer_asking,
      continue_sync, sync_peer]
    split
    · apply quiet_entry_after_go env hn ho fuel GoCall.cont
      · exact hwarp
      · exact ⟨_, hst1, hq1⟩
    split
    · apply quiet_entry_after_go env hn ho fuel GoCall.cont
      · exact hwarp
      · exact ⟨_, hst1, hq1⟩
    split
    · apply quiet_entry_after_go env hn ho fuel GoCall.cont
      · exact hwarp
      · exact ⟨_, hst1, hq1⟩
    split
    · apply quiet_entry_after_go env hn ho fuel GoCall.cont
      · exact hwarp
      · exact ⟨_, hst1, hq1⟩
    split
    · apply quiet_entry_after_go env hn ho fuel GoCall.cont
      · exact hwarp
      · exact ⟨_, hst1, hq1⟩
    · apply quiet_entry_after_go env hn ho fuel GoCall.cont
      · rw [sync_go_warp, collect_blocks_warp]
        exact hwarp
      apply quiet_entry_after_go env hn ho fuel (GoCall.syncp peer_id false)
      · rw [collect_blocks_warp]
        exact hwarp
      apply quiet_entry_after_collect env hn ho fuel
      · exact hwarp
      · exact ⟨_, hst1, hq1⟩
    · apply quiet_entry_after_go env hn ho fuel GoCall.cont
      · rw [sync_go_warp, collect_blocks_warp]
        exact hwarp
      apply quiet_entry_after_go env hn ho fuel (GoCall.syncp peer_id false)
      · rw [collect_blocks_warp]
        exact hwarp
      apply quiet_entry_after_collect env hn ho fuel
      · exact hwarp
      · exact ⟨_, hst2, hq1⟩
    · apply quiet_entry_after_go env hn ho fuel GoCall.cont
      · rw [sync_go_warp, collect_blocks_warp]
        exact hwarp
      apply quiet_entry_after_go env hn ho fuel (GoCall.syncp peer_id false)
      · rw [collect_blocks_warp]
        exact hwarp
      apply quiet_entry_after_collect env hn ho fuel
      · exact hwarp
      · exact ⟨_, hst1, hq1⟩
  · intro n
    apply hconv
    simp only [on_peer_block_bodies, reset_peer_asking, continue_sync,
      sync_peer, hlook]
    split
    · apply quiet_entry_after_go env hn ho fuel GoCall.cont
      · exact hwarp
      · exact ⟨_, hst1, hq1⟩
    split
    · apply quiet_entry_after_go env hn ho fuel GoCall.cont
      · exact hwarp
      · exact ⟨_, hst1, hq1⟩
    split
    · apply quiet_entry_after_go env hn ho fuel GoCall.cont
      · exact hwarp
      · exact ⟨_, hst1, hq1⟩
    split
    · apply quiet_entry_after_go env hn ho fuel GoCall.cont
      · exact hwarp
      · exact ⟨_, hst1, hq1⟩
    split
    · apply quiet_entry_after_go env hn ho fuel GoCall.cont
      · exact hwarp
      · exact ⟨_, hst1, hq1⟩
    · apply quiet_entry_after_go env hn ho fuel GoCall.cont
      · rw [sync_go_warp, collect_blocks_warp]
        exact hwarp
      apply quiet_entry_after_go env hn ho fuel (GoCall.syncp peer_id false)
      · rw [collect_blocks_warp]
        exact hwarp
      apply quiet_entry_after_collect env hn ho fuel
      · exact hwarp
      · exact ⟨_, hst1, hq1⟩
    · apply quiet_entry_after_go env hn ho fuel GoCall.cont
      · rw [sync_go_warp, collect_blocks_warp]
        exact hwarp
      apply quiet_entry_after_go env hn ho fuel (GoCall.syncp peer_id false)
      · rw [collect_blocks_warp]
        exact hwarp
      apply quiet_entry_after_collect env hn ho fuel
      · exact hwarp
      · exact ⟨_, hst1, hq1⟩
  · intro n
    apply hconv
    simp only [on_peer_block_receipts, reset_peer_asking, continue_sync,
      sync_peer, hlook]
    split
    · apply quiet_entry_after_go env hn ho fuel GoCall.cont
      · exact hwarp
      · exact ⟨_, hst1, hq1⟩
    split
    · apply quiet_entry_after_go env hn ho fuel GoCall.cont
      · exact hwarp
      · exact ⟨_, hst1, hq1⟩
    split
    · apply quiet_entry_after_go env hn ho fuel GoCall.cont
      · exact hwarp
      · exact ⟨_, hst1, hq1⟩
    split
    · apply quiet_entry_after_go env hn ho fuel GoCall.cont
      · exact hwarp
      · exact ⟨_, hst1, hq1⟩
    split
    · apply quiet_entry_after_go env hn ho fuel GoCall.cont
      · exact hwarp
      · exact ⟨_, hst1, hq1⟩
    · apply quiet_entry_after_go env hn ho fuel GoCall.cont
      · rw [sync_go_warp, collect_blocks_warp]
        exact hwarp
      apply quiet_entry_after_go env hn ho fuel (GoCall.syncp peer_id false)
      · rw [collect_blocks_warp]
        exact hwarp
      apply quiet_entry_after_collect env hn ho fuel
      · exact hwarp
      · exact ⟨_, hst1, hq1⟩
    · apply quiet_entry_after_go env hn ho fuel GoCall.cont
      · rw [sync_go_warp, collect_blocks_warp]
        exact hwarp
      apply quiet_entry_after_go env hn ho fuel (GoCall.syncp peer_id false)
      · rw [collect_blocks_warp]
        exact hwarp
      apply quiet_entry_after_collect env hn ho fuel
      · exact hwarp
      · exact ⟨_, hst1, hq1⟩
  · intro hcs
    constructor
    · intro m
      simp [on_snapshot_manifest, hlook, hcs]
    · simp [on_snapshot_data, hlook, hcs]

/-- A busy fork-confirmed peer with an outstanding bodies request, used in
the C9 witness. -/
def pW9 : PeerInfo := { peer0 with
  asking := PeerAsking.BlockBodies
  asking_blocks := [5]
  block_set := some BlockSet.NewBlocks }

/-- A sync state downloading blocks from the busy peer pW9. -/
def stW9 : SyncSt := { st0 with
  state := SyncState.Blocks
  peers := [(4, pW9)]
  active_peers := [4] }

/-- C9 witness: a concrete BlockBodies response leaves its sender with
asking Nothing, expired false and no block set. -/
theorem c9_reset_on_any_response_amended_witness :
    ∃ p2, lookupPeer
        (on_peer_block_bodies env0 9 stW9 4 2).1.peers 4 = some p2 ∧
      p2.expired = false ∧ p2.asking = PeerAsking.Nothing ∧
      p2.block_set = none :=
  (c9_reset_on_any_response_amended env0 9 stW9 4 pW9 (by rfl) (by rfl)
    (by rfl) (by rfl) (by rfl)).2.1 2

/-- Busy-witness invariant: the sync state is Blocks and the peer w has an
outstanding request on the new-blocks set while able to sync. -/
def blocksBusy (w : Nat) (st : SyncSt) : Prop :=
  st.state = SyncState.Blocks ∧
  ∃ p, lookupPeer st.peers w = some p ∧ p.asking ≠ PeerAsking.Nothing ∧
    p.block_set = some BlockSet.NewBlocks ∧ p.can_sync = true

/-- The supervisor keeps the Blocks state while a new-blocks request is
outstanding on some syncable peer: the completion sweep of continue_sync
is blocked by that peer, and no branch of sync_peer leaves Blocks when the
queue is not full and the ancient downloader offers nothing. -/
theorem sync_go_blocksBusy (env : Env) (hqf : env.queue_is_full = false)
    (ho : env.request_blocks_old = none) (w : Nat) :
    ∀ fuel call st, call ≠ GoCall.maybeStart → blocksBusy w st →
      blocksBusy w (sync_go env fuel call st).1 := by
  intro fuel
  induction fuel with
  | zero => intro call st _ hb; exact hb
  | succ fuel ih =>
    intro call st hcall hb
    obtain ⟨hs, p, hpl, hpa, hpb, hpc⟩ := hb
    cases call with
    | maybeStart => exact absurd rfl hcall
    | syncp pid force =>
      simp only [sync_go]
      split
      · exact ⟨hs, p, hpl, hpa, hpb, hpc⟩
      split
      · exact ⟨hs, p, hpl, hpa, hpb, hpc⟩
      rename_i peer hlook
      split
      · exact ⟨hs, p, hpl, hpa, hpb, hpc⟩
      rename_i hbusy
      split
      · exact ⟨hs, p, hpl, hpa, hpb, hpc⟩
      split
      · exact ⟨hs, p, hpl, hpa, hpb, hpc⟩
      split
      · simp only [hs, hqf, Bool.false_eq_true, if_false, ho]
        split
        · split
          · rename_i request hreqn
            refine ⟨?_, ?_⟩
            · simp [request_blocks_r, hs]
            · by_cases hwp : w = pid
              · exfalso
                subst hwp
                rw [hlook] at hpl
                injection hpl with hpe
                simp at hbusy
                exact hpa (hpe ▸ hbusy.1)
              · refine ⟨p, ?_, hpa, hpb, hpc⟩
                simp [request_blocks_r, lookupPeer_setPeer, hwp, hpl]
          · split
            · exact ⟨hs, p, hpl, hpa, hpb, hpc⟩
            · exact ⟨hs, p, hpl, hpa, hpb, hpc⟩
        · split
          · exact ⟨hs, p, hpl, hpa, hpb, hpc⟩
          · exact ⟨hs, p, hpl, hpa, hpb, hpc⟩
      · exact ⟨hs, p, hpl, hpa, hpb, hpc⟩
    | cont =>
      simp only [sync_go]
      have hstep : ∀ (acc : SyncSt × List Action) (kp : Nat × Nat × Nat),
          blocksBusy w acc.1 →
          blocksBusy w (if acc.1.active_peers.contains kp.1 then
              ((sync_go env fuel (GoCall.syncp kp.1 false) acc.1).1,
               acc.2 ++ (sync_go env fuel (GoCall.syncp kp.1 false) acc.1).2)
            else acc).1 := by
        intro acc kp hacc
        split
        · exact ih (GoCall.syncp kp.1 false) acc.1 (by intro hh; cases hh) hacc
        · exact hacc
      have hfold := foldl_preserve (fun acc => blocksBusy w acc.1) _
        (sortByVersion (env.shuffle3 (st.peers.filterMap (fun kp =>
          if kp.2.can_sync then
            some (kp.1, kp.2.difficulty.getD 0, kp.2.protocol_version)
          else none)))) (st, []) ⟨hs, p, hpl, hpa, hpb, hpc⟩ hstep
      split
      · rename_i hcond
        exfalso
        obtain ⟨hs1, p1, hpl1, hpa1, hpb1, hpc1⟩ := hfold
        have hmem := mem_of_lookupPeer _ _ _ hpl1
        simp only [Bool.and_eq_true, Bool.not_eq_true'] at hcond
        rw [List.any_eq_false] at hcond
        exact hcond.2 (w, p1) hmem (by simp [hpa1, hpb1, hpc1])
      · exact hfold

/-- continue_sync keeps the Blocks state while a new-blocks request is
outstanding on some syncable peer. -/
theorem continue_sync_blocksBusy (env : Env) (hqf : env.queue_is_full = false)
    (ho : env.request_blocks_old = none) (w : Nat) (fuel : Nat) (st : SyncSt)
    (hb : blocksBusy w st) : blocksBusy w (continue_sync env fuel st).1 :=
  sync_go_blocksBusy env hqf ho w fuel GoCall.cont st
    (by intro hh; cases hh) hb

/-- A NewBlock packet whose header is unknown to the chain, used for C2. -/
def pktC2 : NewBlockPacket :=
  { difficulty := 9, header_raw := [1, 2], header_number := 7 }

/-- An Idle sync state with one confirmed quiet peer, used for C2. -/
def stC2 : SyncSt := { st0 with
  peers := [(1, peer0)]
  active_peers := [1] }

/-- An environment whose chain reports an unknown parent on import and
whose downloader offers a header request, used for C2. -/
def envC2 : Env := { env0 with
  import_block_result := ImportBlockResult.unknownParent
  request_blocks_new := some (BlockRequest.headers 55 64 0 false) }

/-- C2 counterexample: the claim says an unknown-parent NewBlock in Idle
sets the sync state to NewBlocks.  The forced sync_peer on the sender goes
through the common download path, which moves an Idle state to Blocks when
the request is sent (mod.rs lines 1289 to 1291), so the final state is
Blocks, not NewBlocks, even though the forced request was issued. -/
theorem c2_unknown_parent_counterexample :
    (on_peer_new_block envC2 9 stC2 1 pktC2).1.state = SyncState.Blocks ∧
    SyncState.Blocks ≠ SyncState.NewBlocks ∧
    Action.requestBlocks 1 (BlockRequest.headers 55 64 0 false)
        BlockSet.NewBlocks ∈ (on_peer_new_block envC2 9 stC2 1 pktC2).2 := by
  refine ⟨rfl, by decide, by decide⟩

/-- The tail of the unknown-parent Idle path: the forced sync_peer sends
the new-blocks request to the sender, the state moves to Blocks, and the
trailing continue_sync cannot leave Blocks while that request is
outstanding. -/
theorem c2_tail (env : Env) (fuel : Nat) (st3 : SyncSt) (peer_id : Nat)
    (p3 : PeerInfo) (req : BlockRequest)
    (hlook3 : lookupPeer st3.peers peer_id = some p3)
    (hact : st3.active_peers.contains peer_id = true)
    (hask : p3.asking = PeerAsking.Nothing) (hcs : p3.can_sync = true)
    (hst : st3.state = SyncState.Idle) (hqf : env.queue_is_full = false)
    (ho : env.request_blocks_old = none)
    (hbs : env.block_status p3.latest_hash = BlockStatus.Unknown)
    (hreq : env.request_blocks_new = some req) :
    (continue_sync env (fuel + 1)
        (sync_peer env (fuel + 1) st3 peer_id true).1).1.state =
      SyncState.Blocks ∧
    Action.requestBlocks peer_id req BlockSet.NewBlocks ∈
      (sync_peer env (fuel + 1) st3 peer_id true).2 ++
        (continue_sync env (fuel + 1)
          (sync_peer env (fuel + 1) st3 peer_id true).1).2 := by
  have heq : sync_peer env (fuel + 1) st3 peer_id true =
      ({ (request_blocks_r env st3 peer_id req BlockSet.NewBlocks).1 with
          state := SyncState.Blocks },
       (request_blocks_r env st3 peer_id req BlockSet.NewBlocks).2) := by
    simp only [sync_peer, sync_go, hact, hlook3, hask, hcs, hst, hqf, hbs,
      hreq]
    simp
  rw [heq]
  constructor
  · refine (continue_sync_blocksBusy env hqf ho peer_id (fuel + 1) _ ?_).1
    refine ⟨rfl, ?_⟩
    cases req with
    | headers a b c d =>
      refine ⟨{ p3 with asking := PeerAsking.BlockHeaders,
                        asking_hash := some a, ask_time := env.now,
                        block_set := some BlockSet.NewBlocks },
        ?_, by simp, by simp, ?_⟩
      · simp only [request_blocks_r]
        rw [lookupPeer_setPeer, if_pos rfl, hlook3]
        rfl
      · simpa [PeerInfo.can_sync] using hcs
    | bodies hs =>
      refine ⟨{ p3 with asking := PeerAsking.BlockBodies,
                        asking_blocks := hs, ask_time := env.now,
                        block_set := some BlockSet.NewBlocks },
        ?_, by simp, by simp, ?_⟩
      · simp only [request_blocks_r]
        rw [lookupPeer_setPeer, if_pos rfl, hlook3]
        rfl
      · simpa [PeerInfo.can_sync] using hcs
    | receipts hs =>
      refine ⟨{ p3 with asking := PeerAsking.BlockReceipts,
                        asking_blocks := hs, ask_time := env.now,
                        block_set := some BlockSet.NewBlocks },
        ?_, by simp, by simp, ?_⟩
      · simp only [request_blocks_r]
        rw [lookupPeer_setPeer, if_pos rfl, hlook3]
        rfl
      · simpa [PeerInfo.can_sync] using hcs
  · simp [request_blocks_r]

set_option maxHeartbeats 1000000 in
/-- C2 amended: an unknown-parent NewBlock received in Idle from an
active, confirmed, quiet peer triggers the forced request to the sender
and moves the state to Blocks (not NewBlocks), provided the queue is not
full and the new-blocks downloader offers a request; outside Idle the
unknown parent triggers no forced request: in the quiet setting the call
issues no block request at all and the state only falls back to Idle or
SnapshotWaiting through the regular supervisor housekeeping. -/
theorem c2_unknown_parent_amended (env : Env) (fuel : Nat) (st : SyncSt)
    (peer_id : Nat) (p0 : PeerInfo) (pkt : NewBlockPacket)
    (req : BlockRequest)
    (hlook : lookupPeer st.peers peer_id = some p0)
    (himp : env.import_block_result = ImportBlockResult.unknownParent)
    (hanc : (st.new_blocks_last_imported > pkt.header_number &&
      st.new_blocks_last_imported - pkt.header_number >
        MAX_NEW_BLOCK_AGE) = false) :
    (st.state = SyncState.Idle →
      p0.confirmation = ForkConfirmation.Confirmed → p0.expired = false →
      p0.asking = PeerAsking.Nothing →
      st.active_peers.contains peer_id = true →
      env.queue_is_full = false → env.request_blocks_old = none →
      env.request_blocks_new = some req →
      env.block_status (env.keccak pkt.header_raw) = BlockStatus.Unknown →
      (on_peer_new_block env (fuel + 1) st peer_id pkt).1.state =
        SyncState.Blocks ∧
      Action.requestBlocks peer_id req BlockSet.NewBlocks ∈
        (on_peer_new_block env (fuel + 1) st peer_id pkt).2) ∧
    (st.state ≠ SyncState.Idle →
      env.request_blocks_new = none → env.request_blocks_old = none →
      env.queue_is_full = false → st.warp_sync = WarpSync.Disabled →
      allowedNext st.state
        (on_peer_new_block env (fuel + 1) st peer_id pkt).1.state ∧
      ∀ a ∈ (on_peer_new_block env (fuel + 1) st peer_id pkt).2,
        a.isRequestBlocks = false) := by
  constructor
  · intro hstate hconf hexp hask hactive hqf ho hreq hbs
    simp only [on_peer_new_block]
    split
    · rename_i hg
      exfalso
      rw [hlook] at hg
      simp [PeerInfo.can_sync, hconf, hexp] at hg
    · split
      all_goals split
      all_goals try (rename_i hc; exfalso; simp [hanc] at hc; done)
      all_goals simp only [himp, List.nil_append]
      all_goals split
      all_goals try (rename_i hcu; exfalso; simp at hcu; done)
      all_goals split
      all_goals try (rename_i hcT; exfalso; simp at hcT; exact hcT hstate)
      all_goals try simp only [List.nil_append]
      all_goals apply c2_tail env fuel
      all_goals first
        | exact hactive
        | exact hstate
        | exact hqf
        | exact ho
        | exact hbs
        | exact hreq
        | (simp only []; rw [lookupPeer_setPeer, if_pos rfl, lookupPeer_setPeer, if_pos rfl, hlook]; rfl)
        | (simp [apply_ite, ite_self, hask]; done)
        | (simp [PeerInfo.can_sync, apply_ite, ite_self, hconf, hexp]; done)
  · intro hne hn2 ho2 hqf2 hwarp2
    constructor
    · simp only [on_peer_new_block]
      split
      · exact Or.inl rfl
      · split
        all_goals split
        all_goals try exact Or.inl rfl
        all_goals simp only [himp, continue_sync]
        all_goals split
        all_goals try (rename_i hcon; exfalso; simp at hcon; done)
        all_goals split
        all_goals try (rename_i hcon2; exfalso; simp at hcon2; exact hne hcon2)
        all_goals
          exact (sync_go_goQuiet env hn2 ho2 (fuel + 1) GoCall.cont _
            (by exact hwarp2)).1 hqf2
    · simp only [on_peer_new_block]
      intro a ha
      split at ha
      · simp at ha
      · rename_i hgate2
        split at ha
        all_goals split at ha
        all_goals try (simp at ha; subst ha; rfl)
        all_goals simp only [himp, continue_sync, List.nil_append] at ha
        all_goals split at ha
        all_goals try (rename_i hcon; exfalso; simp at hcon; done)
        all_goals split at ha
        all_goals try (rename_i hcon2; exfalso; simp at hcon2; exact hne hcon2)
        all_goals
          exact (sync_go_goQuiet env hn2 ho2 (fuel + 1) GoCall.cont _
            (by exact hwarp2)).2.1 a ha

/-- C2 witness: the concrete unknown-parent NewBlock in Idle forces the
header request on the sender and leaves the state in Blocks. -/
theorem c2_unknown_parent_amended_witness :
    (on_peer_new_block envC2 (8 + 1) stC2 1 pktC2).1.state =
      SyncState.Blocks ∧
    Action.requestBlocks 1 (BlockRequest.headers 55 64 0 false)
        BlockSet.NewBlocks ∈ (on_peer_new_block envC2 (8 + 1) stC2 1 pktC2).2 :=
  (c2_unknown_parent_amended envC2 8 stC2 1 peer0 pktC2
      (BlockRequest.headers 55 64 0 false) (by rfl) (by rfl) (by rfl)).1
    (by rfl) (by rfl) (by rfl) (by rfl) (by rfl) (by rfl) (by rfl) (by rfl)
    (by rfl)

end ParitySync
